import Mathlib

/-!
# Verification of the movieDB aggregation/enrichment pipeline

A shallow embedding of the pure core of the repository (services/omdb.py,
utils/cache.py, and the pipeline fragments of routes/search.py,
routes/boxoffice.py, routes/genre.py), together with theorems settling the
frozen claims about the natural-language specification.

Python strings are modelled as `List Char` (ASCII fragment: `str.lower`,
`str.strip`, `str.isdigit` are modelled for the ASCII characters that the
repository manipulates).  Machine floats of the source are modelled as `ℚ`;
every arithmetic step of the source that the claims touch is exact in the
float range exercised (small integer ratios, halves), so `ℚ` is faithful
there.  Fallible Python operations (`int(...)`, `float(...)`, `json.loads`,
tuple unpacking) are modelled with `Option`/`Except`.
-/

namespace MovieDB

/-- Python strings, modelled as lists of characters. -/
abbrev PyStr := List Char

/-- Characters treated as whitespace by `str.strip()` (ASCII fragment). -/
def pyWs (c : Char) : Bool :=
  c == ' ' || c == '\t' || c == '\n' || c == '\r' || c == '\x0b' || c == '\x0c'

/-- `value.strip()`: drop whitespace from both ends. -/
def pyStrip (l : PyStr) : PyStr :=
  ((l.dropWhile pyWs).reverse.dropWhile pyWs).reverse

/-- `str.lower()` on one character (ASCII fragment). -/
def pyLowerChar (c : Char) : Char :=
  if 'A' ≤ c ∧ c ≤ 'Z' then Char.ofNat (c.toNat + 32) else c

/-- `value.lower()` (ASCII fragment). -/
def pyLower (l : PyStr) : PyStr := l.map pyLowerChar

/-- `value[:-n]` for `n ≤ len(value)`: drop the last `n` characters. -/
def pyDropRight (n : Nat) (l : PyStr) : PyStr := l.take (l.length - n)

/-- Truthiness of an optional string: `None` and the empty string are falsy. -/
def pyTruthy (o : Option PyStr) : Bool :=
  match o with
  | none => false
  | some s => s ≠ []

/-- Python `x or y` on optional strings. -/
def pyOr (a b : Option PyStr) : Option PyStr :=
  if pyTruthy a then a else b

/-- `str.isdigit()` (ASCII fragment): nonempty and all decimal digits. -/
def pyIsDigit (l : PyStr) : Bool := l ≠ [] && l.all Char.isDigit

/-- Numeric value of a list of decimal digits. -/
def digitsVal (l : List Char) : Nat :=
  l.foldl (fun acc c => acc * 10 + (c.toNat - '0'.toNat)) 0

/-- Digit run continuation for `int(...)`: after a digit, either more digits
or a single underscore followed by a digit may appear. -/
def pyDigitsRest : List Char → Bool
  | [] => true
  | '_' :: cs =>
    match cs with
    | [] => false
    | c :: cs2 => c.isDigit && pyDigitsRest cs2
  | c :: cs => c.isDigit && pyDigitsRest cs

/-- A valid `int(...)` digit body: starts with a digit, underscores only
between digits. -/
def pyDigitsBody (l : List Char) : Bool :=
  match l with
  | [] => false
  | c :: cs => c.isDigit && pyDigitsRest cs

/-- `int(value)` for `value : str`: strip whitespace, optional sign, decimal
digits with single underscores between digits.  `none` models a raised
`ValueError`. -/
def pyIntParse (s : PyStr) : Option Int :=
  let t := pyStrip s
  match t with
  | '+' :: rest =>
    if pyDigitsBody rest then some (digitsVal (rest.filter (fun c => c ≠ '_'))) else none
  | '-' :: rest =>
    if pyDigitsBody rest then some (-(digitsVal (rest.filter (fun c => c ≠ '_')) : Int)) else none
  | _ =>
    if pyDigitsBody t then some (digitsVal (t.filter (fun c => c ≠ '_'))) else none

/-- `parse_int_param` (services/omdb.py, lines 245-251): parse the raw query
parameter, fall back to `default` on a `ValueError` (returned unclamped from
inside the `except` block), otherwise clamp via
`max(min(parsed, maximum), minimum)`.  `None` input parses as `default` and
is then clamped. -/
def parse_int_param (value : Option PyStr) (default : Int) (minimum : Int := 1)
    (maximum : Int := 10) : Int :=
  match value with
  | none => max (min default maximum) minimum
  | some s =>
    match pyIntParse s with
    | none => default
    | some parsed => max (min parsed maximum) minimum

/-- The dedup loop at the end of `expand_search_terms`: skip an item when its
lower-cased form was already seen or the item is empty. -/
def dedupCIGo (seen : List PyStr) : List PyStr → List PyStr
  | [] => []
  | x :: xs =>
    if pyLower x ∈ seen ∨ x = [] then dedupCIGo seen xs
    else x :: dedupCIGo (pyLower x :: seen) xs

/-- Case-insensitive, order-preserving dedup (services/omdb.py, lines
270-278). -/
def dedupCI (l : List PyStr) : List PyStr := dedupCIGo [] l

/-- `expand_search_terms` (services/omdb.py, lines 254-278). -/
def expand_search_terms (query : PyStr) : List PyStr :=
  let normalized := pyStrip query
  if normalized = [] then []
  else
    let lower := pyLower normalized
    let variants₁ : List PyStr :=
      if "ies".data <:+ lower then [pyDropRight 3 normalized ++ "y".data]
      else if "y".data <:+ lower then [pyDropRight 1 normalized ++ "ies".data]
      else []
    let variants₂ : List PyStr :=
      if "s".data <:+ lower then
        (if pyDropRight 1 normalized ≠ [] then [pyDropRight 1 normalized] else [])
      else [normalized ++ "s".data]
    dedupCI (normalized :: (variants₁ ++ variants₂))

/-- Python `value.split(sep)` for a single-character separator: keeps empty
segments, so the result always has (number of separators + 1) parts. -/
def pySplit (sep : Char) : List Char → List PyStr
  | [] => [[]]
  | c :: cs =>
    let r := pySplit sep cs
    if c = sep then [] :: r
    else
      match r with
      | [] => [[c]]
      | h :: t => (c :: h) :: t

/-- Digit body of `float(...)`: integer part, optional point, fractional
part; at least one digit overall.  (The exponent and inf/nan forms of the
Python builtin never occur in the rating strings and are not modelled.) -/
def pyFloatBody (l : PyStr) : Option ℚ :=
  let intPart := l.takeWhile Char.isDigit
  let rest := l.dropWhile Char.isDigit
  match rest with
  | [] => if intPart = [] then none else some (digitsVal intPart)
  | '.' :: frac =>
    if frac.all Char.isDigit ∧ (intPart ≠ [] ∨ frac ≠ []) then
      some ((digitsVal intPart : ℚ) + (digitsVal frac : ℚ) / (10 ^ frac.length))
    else none
  | _ => none

/-- `float(value)`: strip whitespace, optional sign, digit body.  `none`
models a raised `ValueError`. -/
def pyFloatParse (s : PyStr) : Option ℚ :=
  let t := pyStrip s
  match t with
  | '+' :: rest => pyFloatBody rest
  | '-' :: rest => (pyFloatBody rest).map Neg.neg
  | _ => pyFloatBody t

/-- `value.strip(percentChar)`: drop every leading and trailing percent
sign. -/
def pyStripPercent (l : PyStr) : PyStr :=
  ((l.dropWhile (· == '%')).reverse.dropWhile (· == '%')).reverse

/-- Shared body of the two slash branches of `normalize_rating`:
`numerator, denominator = value.split(sep)` (a split into any other number
of parts raises `ValueError`, caught to `None`), then
`(float(numerator) / float(denominator)) * 100`, with `ZeroDivisionError`
also caught to `None`. -/
def slashRating (value : PyStr) : Option ℚ :=
  match pySplit '/' value with
  | [numerator, denominator] =>
    match pyFloatParse numerator, pyFloatParse denominator with
    | some n, some d => if d = 0 then none else some (n / d * 100)
    | _, _ => none
  | _ => none

/-- `normalize_rating` (services/omdb.py, lines 206-218).  The value is
*not* rounded here; `extract_ratings` rounds.  Sources other than the three
recognized ones always yield `None`. -/
def normalize_rating (source value : PyStr) : Option ℚ :=
  if source = "Internet Movie Database".data ∧ '/' ∈ value then slashRating value
  else if source = "Rotten Tomatoes".data ∧ "%".data <:+ value then
    pyFloatParse (pyStripPercent value)
  else if source = "Metacritic".data ∧ '/' ∈ value then slashRating value
  else none

/-- Round-half-to-even on ℚ, the rounding mode of Python `round`.  (Python
rounds the binary-float value; on the exact halves and small ratios produced
by the rating pipeline the two agree.) -/
def pyRoundHalfEven (q : ℚ) : ℤ :=
  if q - ⌊q⌋ < 1 / 2 then ⌊q⌋
  else if 1 / 2 < q - ⌊q⌋ then ⌊q⌋ + 1
  else if Even ⌊q⌋ then ⌊q⌋ else ⌊q⌋ + 1

/-- `round(q, 2)`. -/
def pyRound2 (q : ℚ) : ℚ := (pyRoundHalfEven (q * 100) : ℚ) / 100

/-- The three normalized rating slots (the fixed dict built by
`extract_ratings`). -/
structure Ratings where
  imdb : Option ℚ
  rt : Option ℚ
  metacritic : Option ℚ
deriving DecidableEq, Repr

/-- `extract_ratings` (services/omdb.py, lines 221-235), applied to the
`(Source, Value)` pairs of the detail's `Ratings` list: entries with a falsy
source or value are skipped; a successfully normalized value is rounded to 2
decimals and written into the slot named by its source (only the three
recognized sources ever normalize successfully). -/
def extract_ratings (pairs : List (Option PyStr × Option PyStr)) : Ratings :=
  pairs.foldl
    (fun r p =>
      if ¬ pyTruthy p.1 ∨ ¬ pyTruthy p.2 then r
      else
        let source := p.1.getD []
        let value := p.2.getD []
        match normalize_rating source value with
        | none => r
        | some normalized =>
          if source = "Internet Movie Database".data then
            { r with imdb := some (pyRound2 normalized) }
          else if source = "Rotten Tomatoes".data then
            { r with rt := some (pyRound2 normalized) }
          else
            { r with metacritic := some (pyRound2 normalized) })
    ⟨none, none, none⟩

/-- `average_rating` (services/omdb.py, lines 238-242): mean of the present
slots, rounded to 2 decimals, `None` when no slot is present. -/
def average_rating (r : Ratings) : Option ℚ :=
  let values := ([r.imdb, r.rt, r.metacritic].filterMap id)
  if values = [] then none
  else some (pyRound2 (values.sum / values.length))

/-- `parse_box_office_value` (services/omdb.py, lines 199-203): falsy or
`"N/A"` input yields 0; otherwise keep the digits and read them as an
integer (`int(digits or 0)`, so no digits also yields 0). -/
def parse_box_office_value (box_office : Option PyStr) : Int :=
  match box_office with
  | none => 0
  | some s =>
    if s = [] ∨ s = "N/A".data then 0
    else (digitsVal (s.filter Char.isDigit) : Int)

/-! ## Helper lemmas: splitting and stripping -/

theorem pySplit_no_sep {sep : Char} {t : PyStr} (h : sep ∉ t) :
    pySplit sep t = [t] := by
  induction t with
  | nil => rfl
  | cons c cs ih =>
    have hc : c ≠ sep := fun hc => h (hc ▸ List.mem_cons_self c cs)
    have hcs : sep ∉ cs := fun hm => h (List.mem_cons_of_mem c hm)
    simp only [pySplit, if_neg hc, ih hcs]

theorem pySplit_append {sep : Char} {s t : PyStr} (h : sep ∉ s) :
    pySplit sep (s ++ sep :: t) = s :: pySplit sep t := by
  induction s with
  | nil => simp [pySplit]
  | cons c cs ih =>
    have hc : c ≠ sep := fun hc => h (hc ▸ List.mem_cons_self c cs)
    have hcs : sep ∉ cs := fun hm => h (List.mem_cons_of_mem c hm)
    show pySplit sep (c :: (cs ++ sep :: t)) = _
    simp only [pySplit]
    rw [ih hcs]
    simp [hc]

theorem dropWhile_eq_self_of_not_mem {p : Char → Bool} {l : List Char}
    (h : ∀ c ∈ l, ¬ p c) : l.dropWhile p = l := by
  cases l with
  | nil => rfl
  | cons c cs =>
    have : p c = false := by
      have := h c (List.mem_cons_self c cs)
      simpa using this
    simp [List.dropWhile_cons, this]

theorem pyStripPercent_append {p : PyStr} (hmem : '%' ∉ p) (hne : p ≠ []) :
    pyStripPercent (p ++ "%".data) = p := by
  unfold pyStripPercent
  have h₁ : (p ++ "%".data).dropWhile (· == '%') = p ++ "%".data := by
    cases p with
    | nil => exact absurd rfl hne
    | cons a as =>
      have ha : a ≠ '%' := fun h => hmem (h ▸ List.mem_cons_self a as)
      simp [List.dropWhile_cons, ha]
  rw [h₁]
  have h₂ : (p ++ "%".data).reverse = '%' :: p.reverse := by
    simp [List.reverse_append]
  rw [h₂]
  have h₃ : p.reverse.dropWhile (· == '%') = p.reverse := by
    apply dropWhile_eq_self_of_not_mem
    intro c hc
    have : c ∈ p := List.mem_reverse.mp hc
    intro hcp
    exact hmem ((by simpa using hcp : c = '%') ▸ this)
  simp [List.dropWhile_cons, h₃]

theorem pyRoundHalfEven_intCast (n : ℤ) : pyRoundHalfEven (n : ℚ) = n := by
  simp [pyRoundHalfEven]

/-- `round(q, 2)` is the identity on rationals with at most two decimal
places. -/
theorem pyRound2_eq_self {q : ℚ} {n : ℤ} (h : q * 100 = n) : pyRound2 q = q := by
  unfold pyRound2
  rw [h, pyRoundHalfEven_intCast, ← h,
    mul_div_cancel_right₀ q (by norm_num : (100 : ℚ) ≠ 0)]

/-! ## Claim C10: parse_int_param safety -/

/-- C10 (confirmed): for every input (`None` or any string) and every
default value lying within `[minimum, maximum]`, `parse_int_param` is total
(it never raises: the only fallible step, `int(value)`, is wrapped in
`try/except` and modelled by `Option`) and always returns an integer within
`[minimum, maximum]`; numeric input is clamped to the bounds and non-numeric
input yields the default unchanged. -/
theorem claim_C10_parse_int_param_safe (value : Option PyStr) (d lo hi : Int)
    (h1 : lo ≤ d) (h2 : d ≤ hi) :
    lo ≤ parse_int_param value d lo hi ∧ parse_int_param value d lo hi ≤ hi ∧
      (∀ s, value = some s → pyIntParse s = none →
        parse_int_param value d lo hi = d) ∧
      (∀ s n, value = some s → pyIntParse s = some n →
        parse_int_param value d lo hi = max (min n hi) lo) := by
  refine ⟨?_, ?_, ?_, ?_⟩
  · cases value with
    | none => simp only [parse_int_param]; omega
    | some s =>
      cases hps : pyIntParse s with
      | none => simpa [parse_int_param, hps] using h1
      | some n => simp only [parse_int_param, hps]; omega
  · cases value with
    | none => simp only [parse_int_param]; omega
    | some s =>
      cases hps : pyIntParse s with
      | none => simpa [parse_int_param, hps] using h2
      | some n => simp only [parse_int_param, hps]; omega
  · rintro s rfl hs
    simp [parse_int_param, hs]
  · rintro s n rfl hs
    simp [parse_int_param, hs]

/-- Concrete instantiation of C10: a page parameter of `"999"` is clamped
to the maximum of 10, staying within `[1, 10]`. -/
theorem claim_C10_witness :
    (1 : Int) ≤ parse_int_param (some "999".data) 1 1 10 ∧
      parse_int_param (some "999".data) 1 1 10 ≤ 10 := by
  have h := claim_C10_parse_int_param_safe (some "999".data) 1 1 10
    (by norm_num) (by norm_num)
  exact ⟨h.1, h.2.1⟩

/-! ## Claim C5: rating normalization -/

/-- C5 counterexample: the claim quantifies over *every* rating source, but
the slash form is only recognized for the Internet Movie Database and
Metacritic sources; under the Rotten Tomatoes source the value `"8/10"` is
left absent instead of normalizing to 80. -/
theorem claim_C5_counterexample :
    normalize_rating "Rotten Tomatoes".data "8/10".data = none ∧
      (none : Option ℚ) ≠ some 80 := by
  constructor
  · decide
  · decide

/-- C5 (corrected): for the sources recognizing the slash form (Internet
Movie Database and Metacritic), a value `X/Y` normalizes to `(X/Y)×100`
rounded to 2 decimals (absent when `Y = 0`, the caught
`ZeroDivisionError`); for the Rotten Tomatoes source a value `P%`
normalizes to exactly `P` (rounding is the identity on it up to 2
decimals); any other source yields an absent value whatever the raw string
is. -/
theorem claim_C5_normalize_rating (x y p : PyStr) (qx qy q : ℚ)
    (hx : '/' ∉ x) (hy : '/' ∉ y)
    (hqx : pyFloatParse x = some qx) (hqy : pyFloatParse y = some qy)
    (hp : '%' ∉ p) (hpne : p ≠ []) (hq : pyFloatParse p = some q) :
    (normalize_rating "Internet Movie Database".data (x ++ '/' :: y)).map pyRound2 =
        (if qy = 0 then none else some (pyRound2 (qx / qy * 100))) ∧
      (normalize_rating "Metacritic".data (x ++ '/' :: y)).map pyRound2 =
        (if qy = 0 then none else some (pyRound2 (qx / qy * 100))) ∧
      (normalize_rating "Rotten Tomatoes".data (p ++ "%".data)).map pyRound2 =
        some (pyRound2 q) ∧
      (∀ source value : PyStr, source ≠ "Internet Movie Database".data →
        source ≠ "Rotten Tomatoes".data → source ≠ "Metacritic".data →
        normalize_rating source value = none) := by
  have hmem : '/' ∈ x ++ '/' :: y := List.mem_append_right x (List.mem_cons_self _ _)
  have hslash : slashRating (x ++ '/' :: y) =
      (if qy = 0 then none else some (qx / qy * 100)) := by
    unfold slashRating
    rw [pySplit_append hx, pySplit_no_sep hy]
    simp [hqx, hqy]
  refine ⟨?_, ?_, ?_, ?_⟩
  · rw [normalize_rating, if_pos ⟨rfl, hmem⟩, hslash]
    by_cases h : qy = 0 <;> simp [h]
  · have hne₁ : ¬("Metacritic".data = "Internet Movie Database".data ∧
        '/' ∈ x ++ '/' :: y) := by
      rintro ⟨h, -⟩; exact absurd h (by decide)
    have hne₂ : ¬("Metacritic".data = "Rotten Tomatoes".data ∧
        "%".data <:+ x ++ '/' :: y) := by
      rintro ⟨h, -⟩; exact absurd h (by decide)
    rw [normalize_rating, if_neg hne₁, if_neg hne₂, if_pos ⟨rfl, hmem⟩, hslash]
    by_cases h : qy = 0 <;> simp [h]
  · have hne₁ : ¬("Rotten Tomatoes".data = "Internet Movie Database".data ∧
        '/' ∈ p ++ "%".data) := by
      rintro ⟨h, -⟩; exact absurd h (by decide)
    have hsfx : "%".data <:+ p ++ "%".data := ⟨p, rfl⟩
    rw [normalize_rating, if_neg hne₁, if_pos ⟨rfl, hsfx⟩,
      pyStripPercent_append hp hpne, hq]
    rfl
  · intro source value h₁ h₂ h₃
    rw [normalize_rating]
    rw [if_neg (fun h => h₁ h.1), if_neg (fun h => h₂ h.1), if_neg (fun h => h₃ h.1)]

/-- Concrete instantiation of C5: `"8/10"` under the Internet Movie
Database source normalizes to 80, and `"95%"` under Rotten Tomatoes to
95. -/
theorem claim_C5_witness :
    (normalize_rating "Internet Movie Database".data "8/10".data).map pyRound2 =
        some 80 ∧
      (normalize_rating "Rotten Tomatoes".data "95%".data).map pyRound2 = some 95 := by
  have h := claim_C5_normalize_rating "8".data "10".data "95".data 8 10 95
    (by decide) (by decide) (by decide) (by decide) (by decide) (by decide) (by decide)
  refine ⟨?_, ?_⟩
  · rw [show ("8/10".data : PyStr) = "8".data ++ '/' :: "10".data from rfl, h.1]
    rw [if_neg (by norm_num : ¬(10 : ℚ) = 0)]
    rw [show (8 : ℚ) / 10 * 100 = 80 by norm_num,
      pyRound2_eq_self (n := 8000) (by norm_num)]
  · rw [show ("95%".data : PyStr) = "95".data ++ "%".data from rfl, h.2.2.1]
    rw [pyRound2_eq_self (n := 9500) (by norm_num)]

/-! ## Claim C9: term expansion -/

theorem pyLower_length (l : PyStr) : (pyLower l).length = l.length := by
  simp [pyLower]

theorem ne_of_length_ne {a b : PyStr} (h : a.length ≠ b.length) : a ≠ b :=
  fun hab => h (hab ▸ rfl)

theorem pyLower_ne_of_length_ne {a b : PyStr} (h : a.length ≠ b.length) :
    pyLower a ≠ pyLower b := by
  apply ne_of_length_ne
  rw [pyLower_length, pyLower_length]
  exact h

theorem ne_nil_of_length_pos {a : PyStr} (h : 0 < a.length) : a ≠ [] := by
  cases a with
  | nil => simp at h
  | cons x xs => simp

theorem dedupCIGo_eq_self {l : List PyStr} :
    ∀ seen, (∀ x ∈ l, x ≠ []) → ((l.map pyLower).Nodup) →
      (∀ x ∈ l, pyLower x ∉ seen) → dedupCIGo seen l = l := by
  induction l with
  | nil => intro seen _ _ _; rfl
  | cons x xs ih =>
    intro seen hne hnd hseen
    rw [List.map_cons, List.nodup_cons] at hnd
    have hx : ¬(pyLower x ∈ seen ∨ x = []) := by
      push_neg
      exact ⟨hseen x (List.mem_cons_self x xs), hne x (List.mem_cons_self x xs)⟩
    rw [dedupCIGo, if_neg hx]
    congr 1
    apply ih
    · intro y hy; exact hne y (List.mem_cons_of_mem x hy)
    · exact hnd.2
    · intro y hy
      simp only [List.mem_cons]
      push_neg
      constructor
      · intro hxy
        exact hnd.1 (hxy ▸ List.mem_map_of_mem pyLower hy)
      · exact hseen y (List.mem_cons_of_mem x hy)

theorem dedupCI_eq_self {l : List PyStr} (h1 : ∀ x ∈ l, x ≠ [])
    (h2 : (l.map pyLower).Nodup) : dedupCI l = l :=
  dedupCIGo_eq_self [] h1 h2 (fun _ _ => List.not_mem_nil _)

theorem getLast?_of_singleton_suffix {c : Char} {l : PyStr} (h : [c] <:+ l) :
    l.getLast? = some c := by
  obtain ⟨t, rfl⟩ := h
  exact List.getLast?_concat t

theorem singleton_suffix_unique {c d : Char} {l : PyStr} (h1 : [c] <:+ l)
    (h2 : [d] <:+ l) : c = d := by
  have e1 := getLast?_of_singleton_suffix h1
  have e2 := getLast?_of_singleton_suffix h2
  rw [e1] at e2
  exact Option.some.inj e2

theorem ies_suffix_imp_s {l : PyStr} (h : "ies".data <:+ l) : "s".data <:+ l := by
  obtain ⟨t, rfl⟩ := h
  exact ⟨t ++ ['i', 'e'], by simp⟩

theorem y_suffix_not_s {l : PyStr} (h : "y".data <:+ l) : ¬ "s".data <:+ l := by
  intro hs
  have : 'y' = 's' := singleton_suffix_unique h hs
  simp at this

theorem pyDropRight_length (n : Nat) (l : PyStr) :
    (pyDropRight n l).length = l.length - n := by
  simp [pyDropRight]

/-- C9 counterexample: the claim says a term ending in `s` yields the form
with the trailing `s` dropped, but for the input `"s"` that form is the
empty string and the code suppresses it: the output is just `["s"]`. -/
theorem claim_C9_counterexample :
    expand_search_terms "s".data = ["s".data] ∧
      pyDropRight 1 (pyStrip "s".data) ∉ expand_search_terms "s".data := by
  constructor
  · decide
  · decide

/-- C9 (corrected): term expansion returns an ordered, case-insensitively
deduplicated sequence with the (whitespace-stripped) original term first; a
term ending in `ies` additionally yields the `-y` singular, else a term
ending in `y` yields the `-ies` plural; a term ending in `s` yields the
form with the trailing `s` dropped *when that form is nonempty* (the bare
term `"s"` yields no singular variant), else the `+s` plural is added;
empty input yields an empty sequence. -/
theorem claim_C9_expand_search_terms (q : PyStr) :
    (pyStrip q = [] → expand_search_terms q = []) ∧
      (pyStrip q ≠ [] →
        (expand_search_terms q).head? = some (pyStrip q) ∧
        ((expand_search_terms q).map pyLower).Nodup ∧
        ("ies".data <:+ pyLower (pyStrip q) →
          pyDropRight 3 (pyStrip q) ++ "y".data ∈ expand_search_terms q) ∧
        (¬ "ies".data <:+ pyLower (pyStrip q) →
          "y".data <:+ pyLower (pyStrip q) →
          pyDropRight 1 (pyStrip q) ++ "ies".data ∈ expand_search_terms q) ∧
        ("s".data <:+ pyLower (pyStrip q) → pyDropRight 1 (pyStrip q) ≠ [] →
          pyDropRight 1 (pyStrip q) ∈ expand_search_terms q) ∧
        (¬ "s".data <:+ pyLower (pyStrip q) →
          pyStrip q ++ "s".data ∈ expand_search_terms q)) := by
  constructor
  · intro h
    simp [expand_search_terms, h]
  · intro hn
    have hL : 0 < (pyStrip q).length := List.length_pos.mpr hn
    by_cases hies : "ies".data <:+ pyLower (pyStrip q)
    · -- variants: original, -y singular, drop-s singular
      have hs : "s".data <:+ pyLower (pyStrip q) := ies_suffix_imp_s hies
      have hL3 : 3 ≤ (pyStrip q).length := by
        have := hies.length_le
        simpa [pyLower_length] using this
      have hd1len : (pyDropRight 1 (pyStrip q)).length = (pyStrip q).length - 1 :=
        pyDropRight_length 1 _
      have hd1ne : pyDropRight 1 (pyStrip q) ≠ [] :=
        ne_nil_of_length_pos (by rw [hd1len]; omega)
      have hylen : (pyDropRight 3 (pyStrip q) ++ "y".data).length =
          (pyStrip q).length - 2 := by
        rw [List.length_append, pyDropRight_length]
        have : ("y".data).length = 1 := rfl
        omega
      have hne₁ : (pyStrip q).length ≠
          (pyDropRight 3 (pyStrip q) ++ "y".data).length := by
        rw [hylen]; omega
      have hne₂ : (pyStrip q).length ≠ (pyDropRight 1 (pyStrip q)).length := by
        rw [hd1len]; omega
      have hne₃ : (pyDropRight 3 (pyStrip q) ++ "y".data).length ≠
          (pyDropRight 1 (pyStrip q)).length := by
        rw [hylen, hd1len]; omega
      have hnodup : (([pyStrip q, pyDropRight 3 (pyStrip q) ++ "y".data,
          pyDropRight 1 (pyStrip q)].map pyLower)).Nodup := by
        refine List.nodup_cons.mpr ⟨?_, List.nodup_cons.mpr ⟨?_, List.nodup_singleton _⟩⟩
        · simp only [List.map_cons, List.map_nil, List.mem_cons, List.mem_singleton,
            List.not_mem_nil, or_false]
          push_neg
          exact ⟨pyLower_ne_of_length_ne hne₁, pyLower_ne_of_length_ne hne₂⟩
        · simp only [List.map_cons, List.map_nil, List.mem_singleton,
            List.mem_cons, List.not_mem_nil, or_false]
          exact pyLower_ne_of_length_ne hne₃
      have hexp : expand_search_terms q = [pyStrip q,
          pyDropRight 3 (pyStrip q) ++ "y".data, pyDropRight 1 (pyStrip q)] := by
        simp only [expand_search_terms]
        rw [if_neg hn, if_pos hies, if_pos hs, if_pos hd1ne]
        refine dedupCI_eq_self ?_ (by simpa using hnodup)
        intro x hx
        simp only [List.cons_append, List.singleton_append, List.nil_append,
          List.mem_cons, List.mem_singleton, List.not_mem_nil, or_false] at hx
        rcases hx with rfl | rfl | rfl
        · exact hn
        · exact ne_nil_of_length_pos (by rw [hylen]; omega)
        · exact hd1ne
      rw [hexp]
      refine ⟨rfl, hnodup, ?_, ?_, ?_, ?_⟩
      · intro _; simp
      · intro h _; exact absurd hies h
      · intro _ _; simp
      · intro h; exact absurd hs h
    · by_cases hy : "y".data <:+ pyLower (pyStrip q)
      · -- variants: original, -ies plural, +s plural
        have hnots : ¬ "s".data <:+ pyLower (pyStrip q) := y_suffix_not_s hy
        have hieslen : (pyDropRight 1 (pyStrip q) ++ "ies".data).length =
            (pyStrip q).length + 2 := by
          rw [List.length_append, pyDropRight_length]
          have : ("ies".data).length = 3 := rfl
          omega
        have hslen : ((pyStrip q) ++ "s".data).length = (pyStrip q).length + 1 := by
          rw [List.length_append]
          rfl
        have hne₁ : (pyStrip q).length ≠
            (pyDropRight 1 (pyStrip q) ++ "ies".data).length := by
          rw [hieslen]; omega
        have hne₂ : (pyStrip q).length ≠ ((pyStrip q) ++ "s".data).length := by
          rw [hslen]; omega
        have hne₃ : (pyDropRight 1 (pyStrip q) ++ "ies".data).length ≠
            ((pyStrip q) ++ "s".data).length := by
          rw [hieslen, hslen]; omega
        have hnodup : (([pyStrip q, pyDropRight 1 (pyStrip q) ++ "ies".data,
            pyStrip q ++ "s".data].map pyLower)).Nodup := by
          refine List.nodup_cons.mpr ⟨?_, List.nodup_cons.mpr ⟨?_,
            List.nodup_singleton _⟩⟩
          · simp only [List.map_cons, List.map_nil, List.mem_cons, List.mem_singleton,
              List.not_mem_nil, or_false]
            push_neg
            exact ⟨pyLower_ne_of_length_ne hne₁, pyLower_ne_of_length_ne hne₂⟩
          · simp only [List.map_cons, List.map_nil, List.mem_singleton,
              List.mem_cons, List.not_mem_nil, or_false]
            exact pyLower_ne_of_length_ne hne₃
        have hexp : expand_search_terms q = [pyStrip q,
            pyDropRight 1 (pyStrip q) ++ "ies".data, pyStrip q ++ "s".data] := by
          simp only [expand_search_terms]
          rw [if_neg hn, if_neg hies, if_pos hy, if_neg hnots]
          refine dedupCI_eq_self ?_ (by simpa using hnodup)
          intro x hx
          simp only [List.cons_append, List.singleton_append, List.nil_append,
            List.mem_cons, List.mem_singleton, List.not_mem_nil, or_false] at hx
          rcases hx with rfl | rfl | rfl
          · exact hn
          · exact ne_nil_of_length_pos (by rw [hieslen]; omega)
          · exact ne_nil_of_length_pos (by rw [hslen]; omega)
        rw [hexp]
        refine ⟨rfl, hnodup, ?_, ?_, ?_, ?_⟩
        · intro h; exact absurd h hies
        · intro _ _; simp
        · intro h _; exact absurd h hnots
        · intro _; simp
      · by_cases hsuf : "s".data <:+ pyLower (pyStrip q)
        · -- variants: original, drop-s singular (when nonempty)
          have hd1len : (pyDropRight 1 (pyStrip q)).length =
              (pyStrip q).length - 1 := pyDropRight_length 1 _
          by_cases hd1 : pyDropRight 1 (pyStrip q) ≠ []
          · have hL2 : 2 ≤ (pyStrip q).length := by
              by_contra hcon
              apply hd1
              apply List.length_eq_zero.mp
              omega
            have hne₂ : (pyStrip q).length ≠ (pyDropRight 1 (pyStrip q)).length := by
              rw [hd1len]; omega
            have hnodup : (([pyStrip q, pyDropRight 1 (pyStrip q)].map pyLower)).Nodup := by
              refine List.nodup_cons.mpr ⟨?_, List.nodup_singleton _⟩
              simp only [List.map_cons, List.map_nil, List.mem_singleton,
                List.mem_cons, List.not_mem_nil, or_false]
              exact pyLower_ne_of_length_ne hne₂
            have hexp : expand_search_terms q =
                [pyStrip q, pyDropRight 1 (pyStrip q)] := by
              simp only [expand_search_terms]
              rw [if_neg hn, if_neg hies, if_neg hy, if_pos hsuf, if_pos hd1]
              refine dedupCI_eq_self ?_ (by simpa using hnodup)
              intro x hx
              simp only [List.nil_append, List.mem_cons, List.not_mem_nil,
                or_false] at hx
              rcases hx with rfl | rfl
              · exact hn
              · exact hd1
            rw [hexp]
            refine ⟨rfl, hnodup, ?_, ?_, ?_, ?_⟩
            · intro h; exact absurd h hies
            · intro _ h; exact absurd h hy
            · intro _ _; simp
            · intro h; exact absurd hsuf h
          · have hexp : expand_search_terms q = [pyStrip q] := by
              simp only [expand_search_terms]
              rw [if_neg hn, if_neg hies, if_neg hy, if_pos hsuf, if_neg hd1]
              refine dedupCI_eq_self ?_ (by simp)
              intro x hx
              simp only [List.nil_append, List.mem_singleton,
                List.mem_cons, List.not_mem_nil, or_false] at hx
              subst hx
              exact hn
            rw [hexp]
            refine ⟨rfl, by simp, ?_, ?_, ?_, ?_⟩
            · intro h; exact absurd h hies
            · intro _ h; exact absurd h hy
            · intro _ h; exact absurd h hd1
            · intro h; exact absurd hsuf h
        · -- variants: original, +s plural
          have hslen : ((pyStrip q) ++ "s".data).length = (pyStrip q).length + 1 := by
            rw [List.length_append]
            rfl
          have hne₂ : (pyStrip q).length ≠ ((pyStrip q) ++ "s".data).length := by
            rw [hslen]; omega
          have hnodup : (([pyStrip q, pyStrip q ++ "s".data].map pyLower)).Nodup := by
            refine List.nodup_cons.mpr ⟨?_, List.nodup_singleton _⟩
            simp only [List.map_cons, List.map_nil, List.mem_singleton,
              List.mem_cons, List.not_mem_nil, or_false]
            exact pyLower_ne_of_length_ne hne₂
          have hexp : expand_search_terms q = [pyStrip q, pyStrip q ++ "s".data] := by
            simp only [expand_search_terms]
            rw [if_neg hn, if_neg hies, if_neg hy, if_neg hsuf]
            refine dedupCI_eq_self ?_ (by simpa using hnodup)
            intro x hx
            simp only [List.nil_append, List.mem_cons, List.not_mem_nil,
              or_false] at hx
            rcases hx with rfl | rfl
            · exact hn
            · exact ne_nil_of_length_pos (by rw [hslen]; omega)
          rw [hexp]
          refine ⟨rfl, hnodup, ?_, ?_, ?_, ?_⟩
          · intro h; exact absurd h hies
          · intro _ h; exact absurd h hy
          · intro h _; exact absurd h hsuf
          · intro _; simp

/-- Concrete instantiation of C9 at the query `"Movies"`: the output is
ordered with the original first, case-insensitively duplicate-free, and
contains both the `-y` singular and the dropped-`s` singular. -/
theorem claim_C9_witness :
    pyStrip "Movies".data ≠ [] ∧
      (expand_search_terms "Movies".data).head? = some (pyStrip "Movies".data) ∧
      pyDropRight 3 (pyStrip "Movies".data) ++ "y".data ∈
        expand_search_terms "Movies".data ∧
      pyDropRight 1 (pyStrip "Movies".data) ∈ expand_search_terms "Movies".data := by
  have hn : pyStrip "Movies".data ≠ [] := by decide
  have h := (claim_C9_expand_search_terms "Movies".data).2 hn
  exact ⟨hn, h.1, h.2.2.1 (by decide), h.2.2.2.2.1 (by decide) (by decide)⟩

/-! ## Claim C2: pagination -/

/-- Pagination output: the echoed page, the slice, and the navigation
metadata computed by a route. -/
structure PageOut (α : Type) where
  page : Nat
  results : List α
  total : Nat
  totalPages : Nat
  hasPrev : Bool
  hasNext : Bool
deriving DecidableEq, Repr

/-- Pagination of the free-text search route (routes/search.py, lines
189-203): the requested page is *not* clamped to the number of pages;
`has_prev` is `page > 1` with no condition on the total. -/
def searchPaginate (l : List α) (page per_page : Nat) : PageOut α :=
  let start_index := (page - 1) * per_page
  let page_results := (l.drop start_index).take per_page
  let total_results := l.length
  let has_next := decide (start_index + per_page < total_results)
  let total_pages := if total_results ≠ 0 then (total_results + per_page - 1) / per_page else 1
  { page := page, results := page_results, total := total_results,
    totalPages := total_pages, hasPrev := decide (1 < page), hasNext := has_next }

/-- Pagination of the box-office route (routes/boxoffice.py, lines
250-260): empty totals force page 1, out-of-range pages are clamped to the
last page, and `has_prev` requires a nonzero total. -/
def boxofficePaginate (l : List α) (page per_page : Nat) : PageOut α :=
  let total_count := l.length
  let page₁ := if total_count = 0 then 1 else page
  let total_pages := if total_count ≠ 0 then (total_count + per_page - 1) / per_page else 1
  let page₂ := if total_count ≠ 0 ∧ total_pages < page₁ then total_pages else page₁
  let start_index := (page₂ - 1) * per_page
  let end_index := start_index + per_page
  let page_results := if total_count ≠ 0 then (l.drop start_index).take per_page else []
  { page := page₂, results := page_results, total := total_count,
    totalPages := total_pages,
    hasPrev := decide (1 < page₂ ∧ 0 < total_count),
    hasNext := decide (end_index < total_count) }

/-- Pagination of the genre route (routes/genre.py, lines 359-372): the
page is clamped, but when the pool is below its 100-entry cap and the page
is below 10, `total_pages` is speculatively bumped to `page + 1` and
`has_next` is forced to true. -/
def genrePaginate (l : List α) (page : Nat) : PageOut α :=
  let total_count := l.length
  let total_pages := max 1 ((total_count + 9) / 10)
  let page₂ := if total_pages < page then total_pages else page
  let start_index := (page₂ - 1) * 10
  let page_results := (l.drop start_index).take 10
  let potential_more := total_count < 100 ∧ page₂ < 10
  let total_pages₂ := if potential_more ∧ total_pages ≤ page₂ then page₂ + 1 else total_pages
  { page := page₂, results := page_results, total := total_count,
    totalPages := total_pages₂,
    hasPrev := decide (1 < page₂),
    hasNext := decide (page₂ < total_pages₂ ∨ potential_more) }

/-- C2 counterexample: the search paginator does not clamp the requested
page to `[1, ceil(total/pageSize)]`: with one result, page size 10 and
requested page 2, the echoed page stays 2 (outside `[1, 1]`) and `hasPrev`
is true although the clamped formula would give false. -/
theorem claim_C2_counterexample :
    (searchPaginate [()] 2 10).total = 1 ∧
      (searchPaginate [()] 2 10).totalPages = 1 ∧
      (searchPaginate [()] 2 10).page = 2 ∧
      (searchPaginate [()] 2 10).hasPrev = true := by
  decide

/-- C2 (corrected): only the box-office paginator clamps the page and
computes `hasPrev`/`hasNext` exactly as claimed (with
`totalPages = max(1, ceil(total/pageSize))`); the search paginator leaves
the requested page unclamped (an out-of-range page yields an empty window
and `hasPrev = page > 1` regardless of the total); the genre paginator
clamps the page but forces `hasNext = true` (bumping `totalPages` to
`page + 1`) whenever the pool holds fewer than 100 entries and the page is
below 10, even when `page*pageSize ≥ total`. -/
theorem claim_C2_pagination {α : Type} :
    (∀ (l : List α) (page pp : Nat), 0 < pp → 1 ≤ page →
      (boxofficePaginate l page pp).page =
          min page (max 1 ((l.length + pp - 1) / pp)) ∧
        (boxofficePaginate l page pp).totalPages =
          max 1 ((l.length + pp - 1) / pp) ∧
        (boxofficePaginate l page pp).hasPrev =
          decide (1 < (boxofficePaginate l page pp).page ∧ 0 < l.length) ∧
        (boxofficePaginate l page pp).hasNext =
          decide ((boxofficePaginate l page pp).page * pp < l.length) ∧
        (boxofficePaginate l page pp).results =
          (l.drop (((boxofficePaginate l page pp).page - 1) * pp)).take pp) ∧
      (∀ (l : List α) (page pp : Nat), 0 < pp → 1 ≤ page →
        (searchPaginate l page pp).page = page ∧
          (searchPaginate l page pp).totalPages =
            max 1 ((l.length + pp - 1) / pp) ∧
          (searchPaginate l page pp).hasPrev = decide (1 < page) ∧
          (searchPaginate l page pp).hasNext = decide (page * pp < l.length) ∧
          (searchPaginate l page pp).results =
            (l.drop ((page - 1) * pp)).take pp) ∧
      (∀ (l : List α) (page : Nat), 1 ≤ page →
        (genrePaginate l page).page = min page (max 1 ((l.length + 9) / 10)) ∧
          (genrePaginate l page).hasPrev =
            decide (1 < (genrePaginate l page).page) ∧
          (genrePaginate l page).results =
            (l.drop (((genrePaginate l page).page - 1) * 10)).take 10 ∧
          (l.length < 100 ∧ (genrePaginate l page).page < 10 →
            (genrePaginate l page).hasNext = true) ∧
          (¬(l.length < 100 ∧ (genrePaginate l page).page < 10) →
            (genrePaginate l page).hasNext =
                decide ((genrePaginate l page).page * 10 < l.length) ∧
              (genrePaginate l page).totalPages =
                max 1 ((l.length + 9) / 10))) := by
  have hmul : ∀ k pp : Nat, 1 ≤ k → (k - 1) * pp + pp = k * pp := by
    intro k pp hk
    rw [Nat.sub_one_mul, Nat.sub_add_cancel (Nat.le_mul_of_pos_left pp (by omega))]
  refine ⟨?_, ?_, ?_⟩
  · intro l page pp hpp hpage
    by_cases h0 : l.length = 0
    · have hl : l = [] := List.length_eq_zero.mp h0
      subst hl
      have hceil : (pp - 1) / pp = 0 := Nat.div_eq_of_lt (by omega)
      refine ⟨?_, ?_, ?_, ?_, ?_⟩
      · simp [boxofficePaginate, hceil]
        omega
      · simp [boxofficePaginate, hceil]
      · simp [boxofficePaginate]
      · simp [boxofficePaginate]
      · simp [boxofficePaginate]
    · have hL1 : 1 ≤ l.length := Nat.one_le_iff_ne_zero.mpr h0
      have hceil1 : 1 ≤ (l.length + pp - 1) / pp := by
        rw [Nat.le_div_iff_mul_le hpp]
        omega
      by_cases hc : (l.length + pp - 1) / pp < page
      · have hx : ((l.length + pp - 1) / pp - 1) * pp + pp =
            ((l.length + pp - 1) / pp) * pp := hmul _ pp hceil1
        refine ⟨?_, ?_, ?_, ?_, ?_⟩
        · simp [boxofficePaginate, h0, hc]
          omega
        · simp [boxofficePaginate, h0]
          omega
        · simp [boxofficePaginate, h0, hc]
        · simp [boxofficePaginate, h0, hc, hx]
        · simp [boxofficePaginate, h0, hc]
      · have hx : (page - 1) * pp + pp = page * pp := hmul page pp hpage
        refine ⟨?_, ?_, ?_, ?_, ?_⟩
        · simp [boxofficePaginate, h0, hc]
          omega
        · simp [boxofficePaginate, h0]
          omega
        · simp [boxofficePaginate, h0, hc]
        · simp [boxofficePaginate, h0, hc, hx]
        · simp [boxofficePaginate, h0, hc]
  · intro l page pp hpp hpage
    have hx : (page - 1) * pp + pp = page * pp := hmul page pp hpage
    refine ⟨rfl, ?_, rfl, ?_, rfl⟩
    · by_cases h0 : l.length = 0
      · simp [searchPaginate, h0]
        have hceil : (pp - 1) / pp = 0 := Nat.div_eq_of_lt (by omega)
        omega
      · have hceil1 : 1 ≤ (l.length + pp - 1) / pp := by
          rw [Nat.le_div_iff_mul_le hpp]
          have : 1 ≤ l.length := Nat.one_le_iff_ne_zero.mpr h0
          omega
        simp [searchPaginate, h0]
        omega
    · simp [searchPaginate, hx]
  · intro l page hpage
    have hifmin : (if max 1 ((l.length + 9) / 10) < page
        then max 1 ((l.length + 9) / 10) else page) =
          min page (max 1 ((l.length + 9) / 10)) := by
      by_cases hc : max 1 ((l.length + 9) / 10) < page
      · simp [hc]
        omega
      · simp [hc]
        omega
    refine ⟨?_, rfl, rfl, ?_, ?_⟩
    · simp only [genrePaginate]
      exact hifmin
    · intro hpm
      simp only [genrePaginate, hifmin, decide_eq_true_eq] at hpm ⊢
      exact Or.inr hpm
    · intro hpm
      simp only [genrePaginate, hifmin] at hpm ⊢
      have htp : (if (l.length < 100 ∧ min page (max 1 ((l.length + 9) / 10)) < 10) ∧
          max 1 ((l.length + 9) / 10) ≤ min page (max 1 ((l.length + 9) / 10))
          then min page (max 1 ((l.length + 9) / 10)) + 1
          else max 1 ((l.length + 9) / 10)) = max 1 ((l.length + 9) / 10) :=
        if_neg (fun h => hpm h.1)
      rw [htp]
      refine ⟨?_, rfl⟩
      rw [decide_eq_decide]
      omega

/-- Concrete instantiation of C2 (the boundary example of the spec): 25
results at page size 10 give 3 pages; requested page 4 is clamped to 3 by
the box-office paginator; `hasNext` is false on page 3 and true on page 2;
the search paginator leaves page 4 unclamped. -/
theorem claim_C2_witness :
    (boxofficePaginate (List.replicate 25 ()) 4 10).page = 3 ∧
      (boxofficePaginate (List.replicate 25 ()) 4 10).totalPages = 3 ∧
      (boxofficePaginate (List.replicate 25 ()) 4 10).hasNext = false ∧
      (boxofficePaginate (List.replicate 25 ()) 2 10).hasNext = true ∧
      (searchPaginate (List.replicate 25 ()) 4 10).page = 4 := by
  have h1 := (claim_C2_pagination (α := Unit)).1 (List.replicate 25 ()) 4 10
    (by norm_num) (by norm_num)
  have h2 := (claim_C2_pagination (α := Unit)).1 (List.replicate 25 ()) 2 10
    (by norm_num) (by norm_num)
  have h3 := (claim_C2_pagination (α := Unit)).2.1 (List.replicate 25 ()) 4 10
    (by norm_num) (by norm_num)
  refine ⟨?_, ?_, ?_, ?_, h3.1⟩
  · rw [h1.1]; decide
  · rw [h1.2.1]; decide
  · rw [h1.2.2.2.1, h1.1]; decide
  · rw [h2.2.2.2.1, h2.1]; decide

/-! ## Claim C6: aggregator deduplication -/

/-- The candidate shape returned by the provider search endpoint (the keys
of an OMDb `Search` entry the routes read). -/
structure SearchItem where
  Title : Option PyStr
  Year : Option PyStr
  imdbID : Option PyStr
  Poster : Option PyStr
deriving DecidableEq, Repr

/-- The projected record appended by the free-text search aggregation loop
(routes/search.py, lines 95-102). -/
structure Candidate where
  title : Option PyStr
  year : Option PyStr
  poster : Option PyStr
  imdbID : Option PyStr
deriving DecidableEq, Repr

/-- `item.get("imdbID") or item.get("Title")` — the raw identifier. -/
def searchKey (it : SearchItem) : Option PyStr := pyOr it.imdbID it.Title

def searchProj (it : SearchItem) : Candidate :=
  ⟨it.Title, it.Year, it.Poster, it.imdbID⟩

/-- The key recomputed from a projected candidate. -/
def candKeyStr (c : Candidate) : PyStr := (pyOr c.imdbID c.title).getD []

/-- The dedup key of `add_candidate` (routes/boxoffice.py, line 67):
`identifier.strip().lower()`. -/
def boxCandidateKey (it : SearchItem) : Option PyStr :=
  (pyOr it.imdbID it.Title).map (fun s => pyLower (pyStrip s))

/-- The genre-franchise exclusion of `add_candidate` (routes/boxoffice.py,
line 71): in genre-browse mode without a free-text query, drop candidates
whose title contains the genre name as a substring. -/
def boxExcluded (query genre_filter : PyStr) (it : SearchItem) : Bool :=
  query = [] && genre_filter ≠ [] &&
    decide (pyLower genre_filter <:+: pyLower (it.Title.getD []))

/-- One step of a dedup-accumulate loop over provider items, carrying the
(`seen` keys, accumulated output) pair.  Instantiated with the exact key
and no exclusion it is the body of the search aggregation loop
(routes/search.py, lines 90-102); with the lower-cased stripped key and
the genre exclusion it is `add_candidate` (routes/boxoffice.py, lines
63-74). -/
def aggStep {β : Type} (keyf : SearchItem → Option PyStr)
    (excl : SearchItem → Bool) (proj : SearchItem → β)
    (st : List PyStr × List β) (it : SearchItem) : List PyStr × List β :=
  match keyf it with
  | none => st
  | some k =>
    if k = [] ∨ k ∈ st.1 then st
    else if excl it then st
    else (st.1 ++ [k], st.2 ++ [proj it])

/-- The search aggregation loop over a flattened sequence of provider
items (routes/search.py, lines 90-102). -/
def searchAggregate (items : List SearchItem) : List Candidate :=
  (items.foldl (aggStep searchKey (fun _ => false) searchProj) ([], [])).2

/-- The box-office aggregation loop (`add_candidate` applied to a sequence
of provider items, routes/boxoffice.py, lines 63-74). -/
def boxAggregate (query genre_filter : PyStr) (items : List SearchItem) :
    List SearchItem :=
  (items.foldl (aggStep boxCandidateKey (boxExcluded query genre_filter) id)
    ([], [])).2

theorem aggFold_spec {β : Type} (keyf : SearchItem → Option PyStr)
    (excl : SearchItem → Bool) (proj : SearchItem → β) :
    ∀ (items : List SearchItem) (st : List PyStr × List β), st.1.Nodup →
      ∃ sub : List SearchItem, List.Sublist sub items ∧
        (items.foldl (aggStep keyf excl proj) st).2 = st.2 ++ sub.map proj ∧
        (items.foldl (aggStep keyf excl proj) st).1 =
          st.1 ++ sub.map (fun it => (keyf it).getD []) ∧
        (items.foldl (aggStep keyf excl proj) st).1.Nodup ∧
        (∀ it ∈ items, ∀ k, keyf it = some k → k ≠ [] → excl it = false →
          k ∈ (items.foldl (aggStep keyf excl proj) st).1) := by
  intro items
  induction items with
  | nil =>
    intro st hst
    exact ⟨[], List.Sublist.refl _, by simp, by simp, hst, by simp⟩
  | cons it items ih =>
    intro st hst
    rcases hkf : keyf it with _ | k
    · have hstep : aggStep keyf excl proj st it = st := by
        simp only [aggStep, hkf]
      obtain ⟨sub, hsub, h2, h3, h4, h5⟩ := ih st hst
      refine ⟨sub, hsub.cons it, ?_, ?_, ?_, ?_⟩
      · rw [List.foldl_cons, hstep]; exact h2
      · rw [List.foldl_cons, hstep]; exact h3
      · rw [List.foldl_cons, hstep]; exact h4
      · intro x hx k₀ hk hkne hex
        rcases List.mem_cons.mp hx with rfl | hx
        · rw [hkf] at hk; cases hk
        · rw [List.foldl_cons, hstep]; exact h5 x hx k₀ hk hkne hex
    · by_cases hskip : k = [] ∨ k ∈ st.1
      · have hstep : aggStep keyf excl proj st it = st := by
          simp only [aggStep, hkf]
          rw [if_pos hskip]
        obtain ⟨sub, hsub, h2, h3, h4, h5⟩ := ih st hst
        refine ⟨sub, hsub.cons it, ?_, ?_, ?_, ?_⟩
        · rw [List.foldl_cons, hstep]; exact h2
        · rw [List.foldl_cons, hstep]; exact h3
        · rw [List.foldl_cons, hstep]; exact h4
        · intro x hx k₀ hk hkne hex
          rcases List.mem_cons.mp hx with rfl | hx
          · rw [hkf] at hk
            cases hk
            rw [List.foldl_cons, hstep, h3]
            rcases hskip with h | h
            · exact absurd h hkne
            · exact List.mem_append_left _ h
          · rw [List.foldl_cons, hstep]; exact h5 x hx k₀ hk hkne hex
      · by_cases hex : excl it = true
        · have hstep : aggStep keyf excl proj st it = st := by
            simp only [aggStep, hkf]
            rw [if_neg hskip, if_pos hex]
          obtain ⟨sub, hsub, h2, h3, h4, h5⟩ := ih st hst
          refine ⟨sub, hsub.cons it, ?_, ?_, ?_, ?_⟩
          · rw [List.foldl_cons, hstep]; exact h2
          · rw [List.foldl_cons, hstep]; exact h3
          · rw [List.foldl_cons, hstep]; exact h4
          · intro x hx k₀ hk hkne hexx
            rcases List.mem_cons.mp hx with rfl | hx
            · rw [hexx] at hex; cases hex
            · rw [List.foldl_cons, hstep]; exact h5 x hx k₀ hk hkne hexx
        · have hexf : excl it = false := by
            cases h : excl it
            · rfl
            · exact absurd h hex
          push_neg at hskip
          obtain ⟨hkne, hknotin⟩ := hskip
          have hst' : (st.1 ++ [k]).Nodup := by
            rw [List.nodup_append]
            exact ⟨hst, List.nodup_singleton _,
              by simpa [List.disjoint_singleton] using hknotin⟩
          obtain ⟨sub, hsub, h2, h3, h4, h5⟩ :=
            ih (st.1 ++ [k], st.2 ++ [proj it]) hst'
          have hstep : aggStep keyf excl proj st it =
              (st.1 ++ [k], st.2 ++ [proj it]) := by
            simp only [aggStep, hkf]
            rw [if_neg (by push_neg; exact ⟨hkne, hknotin⟩), if_neg (by simp [hexf])]
          refine ⟨it :: sub, hsub.cons₂ it, ?_, ?_, ?_, ?_⟩
          · rw [List.foldl_cons, hstep, h2]
            simp
          · rw [List.foldl_cons, hstep, h3]
            simp [hkf]
          · rw [List.foldl_cons, hstep]
            exact h4
          · intro x hx k₀ hk hkne₀ hex₀
            rcases List.mem_cons.mp hx with rfl | hx
            · rw [hkf] at hk
              cases hk
              rw [List.foldl_cons, hstep, h3]
              exact List.mem_append_left _ (List.mem_append_right _ (by simp))
            · rw [List.foldl_cons, hstep]
              exact h5 x hx k₀ hk hkne₀ hex₀


/-- C6 counterexample: the claim says the pool is deduplicated by
*lower-cased* identifier, but the free-text search aggregation loop
(routes/search.py, line 92) compares raw identifiers: two items whose
identifiers differ only in case are both kept, so the lower-cased key
appears twice. -/
theorem claim_C6_counterexample :
    (searchAggregate
        [⟨some "A".data, none, some "TT0000001".data, none⟩,
         ⟨some "B".data, none, some "tt0000001".data, none⟩]).length = 2 ∧
      ¬ ((searchAggregate
        [⟨some "A".data, none, some "TT0000001".data, none⟩,
         ⟨some "B".data, none, some "tt0000001".data, none⟩]).map
          (fun c => pyLower (candKeyStr c))).Nodup := by
  constructor
  · decide
  · decide

/-- C6 (corrected): both aggregation loops keep each key exactly once with
first-seen order preserved (the output is a projected sublist of the input
and every surviving item's key is present), but the dedup key differs per
route: the free-text search loop deduplicates by the *exact* identifier
string (falling back to the title), while the box-office `add_candidate`
deduplicates by the whitespace-stripped, lower-cased identifier and also
drops genre-franchise title matches in genre-browse mode. -/
theorem claim_C6_aggregator_dedup :
    (∀ items : List SearchItem,
      ∃ sub : List SearchItem, List.Sublist sub items ∧
        searchAggregate items = sub.map searchProj ∧
        ((searchAggregate items).map candKeyStr).Nodup ∧
        (∀ it ∈ items, ∀ k, searchKey it = some k → k ≠ [] →
          k ∈ (searchAggregate items).map candKeyStr)) ∧
      (∀ (query genre_filter : PyStr) (items : List SearchItem),
        ∃ sub : List SearchItem, List.Sublist sub items ∧
          boxAggregate query genre_filter items = sub ∧
          ((boxAggregate query genre_filter items).map
            (fun it => (boxCandidateKey it).getD [])).Nodup ∧
          (∀ it ∈ items, ∀ k, boxCandidateKey it = some k → k ≠ [] →
            boxExcluded query genre_filter it = false →
            k ∈ (boxAggregate query genre_filter items).map
              (fun it => (boxCandidateKey it).getD []))) := by
  constructor
  · intro items
    obtain ⟨sub, hsub, h2, h3, h4, h5⟩ :=
      aggFold_spec searchKey (fun _ => false) searchProj items ([], []) (by simp)
    have hout : searchAggregate items = sub.map searchProj := by
      simpa [searchAggregate] using h2
    have hkeys : (searchAggregate items).map candKeyStr =
        sub.map (fun it => (searchKey it).getD []) := by
      rw [hout, List.map_map]
      rfl
    refine ⟨sub, hsub, hout, ?_, ?_⟩
    · rw [hkeys]
      have h3' : (items.foldl (aggStep searchKey (fun _ => false) searchProj)
          ([], [])).1 = sub.map (fun it => (searchKey it).getD []) := by
        simpa using h3
      rw [← h3']
      exact h4
    · intro it hit k hk hkne
      have := h5 it hit k hk hkne rfl
      rw [hkeys]
      have h3' : (items.foldl (aggStep searchKey (fun _ => false) searchProj)
          ([], [])).1 = sub.map (fun it => (searchKey it).getD []) := by
        simpa using h3
      rw [← h3']
      exact this
  · intro query genre_filter items
    obtain ⟨sub, hsub, h2, h3, h4, h5⟩ :=
      aggFold_spec boxCandidateKey (boxExcluded query genre_filter) id items
        ([], []) (by simp)
    have hout : boxAggregate query genre_filter items = sub := by
      simpa [boxAggregate] using h2
    have h3' : (items.foldl
        (aggStep boxCandidateKey (boxExcluded query genre_filter) id)
        ([], [])).1 = sub.map (fun it => (boxCandidateKey it).getD []) := by
      simpa using h3
    refine ⟨sub, hsub, hout, ?_, ?_⟩
    · rw [hout, ← h3']
      exact h4
    · intro it hit k hk hkne hexcl
      have := h5 it hit k hk hkne hexcl
      rw [hout, ← h3']
      exact this

/-- Concrete instantiation of C6: two provider items sharing the exact
identifier `tt1` are collapsed into one pool entry whose key is present. -/
theorem claim_C6_witness :
    ((searchAggregate [⟨some "A".data, none, some "tt1".data, none⟩,
        ⟨some "B".data, none, some "tt1".data, none⟩]).map candKeyStr).Nodup ∧
      "tt1".data ∈ (searchAggregate [⟨some "A".data, none, some "tt1".data, none⟩,
        ⟨some "B".data, none, some "tt1".data, none⟩]).map candKeyStr := by
  obtain ⟨sub, hsub, heq, hnodup, hcov⟩ :=
    claim_C6_aggregator_dedup.1 [⟨some "A".data, none, some "tt1".data, none⟩,
      ⟨some "B".data, none, some "tt1".data, none⟩]
  exact ⟨hnodup, hcov ⟨some "A".data, none, some "tt1".data, none⟩ (by simp)
    "tt1".data (by decide) (by decide)⟩


/-! ## Claim C4: search input validation -/

/-- Raw query-string arguments of `GET /api/search`. -/
structure SearchArgs where
  q : Option PyStr
  page : Option PyStr
  per_page : Option PyStr
  mtype : Option PyStr
  year : Option PyStr
  language : Option PyStr
  sort : Option PyStr
deriving DecidableEq, Repr

/-- The five rejection reasons of the search route (routes/search.py, lines
23-40). -/
inductive SearchError where
  | queryRequired
  | queryTooLong
  | badType
  | badYear
  | badSort
deriving DecidableEq, Repr

/-- The validated parameters the pipeline is invoked with. -/
structure SearchParams where
  query : PyStr
  page : Int
  per_page : Int
  mtype : Option PyStr
  year : Option PyStr
  language : Option PyStr
  sort : PyStr
deriving DecidableEq, Repr

/-- The validation prefix of the search route (routes/search.py, lines
22-40): empty/overlong query, invalid media type, non-numeric year and
unknown sort are rejected with HTTP 400; `page` and `per_page` are *not*
validated but clamped by `parse_int_param`. -/
def validateSearch (a : SearchArgs) : Except SearchError SearchParams :=
  let query := pyStrip (a.q.getD [])
  if query = [] then .error .queryRequired
  else if 100 < query.length then .error .queryTooLong
  else
    let page := parse_int_param a.page 1 1 10
    let per_page := parse_int_param a.per_page 10 5 10
    let sort_mode := (pyOr a.sort (some "relevance".data)).getD []
    if pyTruthy a.mtype = true ∧
        a.mtype.getD [] ∉ ["movie".data, "series".data, "episode".data] then
      .error .badType
    else if pyTruthy a.year = true ∧ ¬ pyIsDigit (a.year.getD []) = true then
      .error .badYear
    else if sort_mode ∉ ["relevance".data, "recent".data, "rating".data] then
      .error .badSort
    else .ok ⟨query, page, per_page, a.mtype, a.year, a.language, sort_mode⟩

/-- The dispatch shape of the route: a failed validation returns the 400
response without running the aggregation/enrichment pipeline; a successful
one hands the validated parameters to the pipeline.  The boolean records
whether the pipeline is invoked. -/
def searchRouteDispatch (a : SearchArgs) : Bool × Option SearchParams :=
  match validateSearch a with
  | .error _ => (false, none)
  | .ok p => (true, some p)

/-- Helper: `parse_int_param` stays within `[lo, hi]` when the default
does. -/
theorem parse_int_param_range (value : Option PyStr) (d lo hi : Int)
    (h1 : lo ≤ d) (h2 : d ≤ hi) :
    lo ≤ parse_int_param value d lo hi ∧ parse_int_param value d lo hi ≤ hi := by
  cases value with
  | none =>
    simp only [parse_int_param]
    omega
  | some s =>
    cases hps : pyIntParse s with
    | none =>
      simp only [parse_int_param, hps]
      omega
    | some n =>
      simp only [parse_int_param, hps]
      omega

theorem validateSearch_empty (a : SearchArgs) (c1 : pyStrip (a.q.getD []) = []) :
    validateSearch a = .error .queryRequired := by
  simp only [validateSearch]
  rw [if_pos c1]

theorem validateSearch_long (a : SearchArgs) (c1 : ¬ pyStrip (a.q.getD []) = [])
    (c2 : 100 < (pyStrip (a.q.getD [])).length) :
    validateSearch a = .error .queryTooLong := by
  simp only [validateSearch]
  rw [if_neg c1, if_pos c2]

theorem validateSearch_badType (a : SearchArgs)
    (c1 : ¬ pyStrip (a.q.getD []) = [])
    (c2 : ¬ 100 < (pyStrip (a.q.getD [])).length)
    (c3 : pyTruthy a.mtype = true ∧
      a.mtype.getD [] ∉ ["movie".data, "series".data, "episode".data]) :
    validateSearch a = .error .badType := by
  simp only [validateSearch]
  rw [if_neg c1, if_neg c2, if_pos c3]

theorem validateSearch_badYear (a : SearchArgs)
    (c1 : ¬ pyStrip (a.q.getD []) = [])
    (c2 : ¬ 100 < (pyStrip (a.q.getD [])).length)
    (c3 : ¬ (pyTruthy a.mtype = true ∧
      a.mtype.getD [] ∉ ["movie".data, "series".data, "episode".data]))
    (c4 : pyTruthy a.year = true ∧ ¬ pyIsDigit (a.year.getD []) = true) :
    validateSearch a = .error .badYear := by
  simp only [validateSearch]
  rw [if_neg c1, if_neg c2, if_neg c3, if_pos c4]

theorem validateSearch_badSort (a : SearchArgs)
    (c1 : ¬ pyStrip (a.q.getD []) = [])
    (c2 : ¬ 100 < (pyStrip (a.q.getD [])).length)
    (c3 : ¬ (pyTruthy a.mtype = true ∧
      a.mtype.getD [] ∉ ["movie".data, "series".data, "episode".data]))
    (c4 : ¬ (pyTruthy a.year = true ∧ ¬ pyIsDigit (a.year.getD []) = true))
    (c5 : (pyOr a.sort (some "relevance".data)).getD [] ∉
      ["relevance".data, "recent".data, "rating".data]) :
    validateSearch a = .error .badSort := by
  simp only [validateSearch]
  rw [if_neg c1, if_neg c2, if_neg c3, if_neg c4, if_pos c5]

theorem validateSearch_ok (a : SearchArgs)
    (c1 : ¬ pyStrip (a.q.getD []) = [])
    (c2 : ¬ 100 < (pyStrip (a.q.getD [])).length)
    (c3 : ¬ (pyTruthy a.mtype = true ∧
      a.mtype.getD [] ∉ ["movie".data, "series".data, "episode".data]))
    (c4 : ¬ (pyTruthy a.year = true ∧ ¬ pyIsDigit (a.year.getD []) = true))
    (c5 : ¬ ((pyOr a.sort (some "relevance".data)).getD [] ∉
      ["relevance".data, "recent".data, "rating".data])) :
    validateSearch a = .ok ⟨pyStrip (a.q.getD []),
      parse_int_param a.page 1 1 10, parse_int_param a.per_page 10 5 10,
      a.mtype, a.year, a.language,
      (pyOr a.sort (some "relevance".data)).getD []⟩ := by
  simp only [validateSearch]
  rw [if_neg c1, if_neg c2, if_neg c3, if_neg c4, if_neg c5]

/-- C4 counterexample: a search request with `page=999` (outside 1-10) is
*not* rejected: validation succeeds with the page clamped to 10, and the
pipeline is invoked. -/
theorem claim_C4_counterexample :
    validateSearch ⟨some "batman".data, some "999".data, none, none, none,
        none, none⟩ =
      .ok ⟨"batman".data, 10, 10, none, none, none, "relevance".data⟩ ∧
      (searchRouteDispatch ⟨some "batman".data, some "999".data, none, none,
        none, none, none⟩).1 = true := by
  constructor
  · rfl
  · rfl

/-- C4 (corrected): a search request is rejected (with a validation error,
and without invoking the pipeline) exactly when the stripped query is empty
or longer than 100 characters, a truthy media type lies outside
`{movie, series, episode}`, a truthy year is not all digits, or the
effective sort mode lies outside `{relevance, recent, rating}`.  Out-of-range
`page`/`per_page` values do *not* cause rejection: they are clamped into
`[1, 10]` and `[5, 10]` by `parse_int_param`. -/
theorem claim_C4_validation (a : SearchArgs) :
    ((∃ p, validateSearch a = .ok p) ↔
      (pyStrip (a.q.getD []) ≠ [] ∧ (pyStrip (a.q.getD [])).length ≤ 100 ∧
        (pyTruthy a.mtype = true →
          a.mtype.getD [] ∈ ["movie".data, "series".data, "episode".data]) ∧
        (pyTruthy a.year = true → pyIsDigit (a.year.getD []) = true) ∧
        (pyOr a.sort (some "relevance".data)).getD [] ∈
          ["relevance".data, "recent".data, "rating".data])) ∧
      (∀ e, validateSearch a = .error e → (searchRouteDispatch a).1 = false) ∧
      (∀ p, validateSearch a = .ok p →
        (searchRouteDispatch a).1 = true ∧
          1 ≤ p.page ∧ p.page ≤ 10 ∧ 5 ≤ p.per_page ∧ p.per_page ≤ 10 ∧
          p.page = parse_int_param a.page 1 1 10 ∧
          p.per_page = parse_int_param a.per_page 10 5 10) := by
  by_cases c1 : pyStrip (a.q.getD []) = []
  · have hval := validateSearch_empty a c1
    refine ⟨?_, ?_, ?_⟩
    · constructor
      · rintro ⟨p, hp⟩
        rw [hval] at hp
        cases hp
      · intro h
        exact absurd c1 h.1
    · intro e _
      simp [searchRouteDispatch, hval]
    · intro p hp
      rw [hval] at hp
      cases hp
  · by_cases c2 : 100 < (pyStrip (a.q.getD [])).length
    · have hval := validateSearch_long a c1 c2
      refine ⟨?_, ?_, ?_⟩
      · constructor
        · rintro ⟨p, hp⟩
          rw [hval] at hp
          cases hp
        · intro h
          omega
      · intro e _
        simp [searchRouteDispatch, hval]
      · intro p hp
        rw [hval] at hp
        cases hp
    · by_cases c3 : pyTruthy a.mtype = true ∧
          a.mtype.getD [] ∉ ["movie".data, "series".data, "episode".data]
      · have hval := validateSearch_badType a c1 c2 c3
        refine ⟨?_, ?_, ?_⟩
        · constructor
          · rintro ⟨p, hp⟩
            rw [hval] at hp
            cases hp
          · intro h
            exact absurd (h.2.2.1 c3.1) c3.2
        · intro e _
          simp [searchRouteDispatch, hval]
        · intro p hp
          rw [hval] at hp
          cases hp
      · by_cases c4 : pyTruthy a.year = true ∧ ¬ pyIsDigit (a.year.getD []) = true
        · have hval := validateSearch_badYear a c1 c2 c3 c4
          refine ⟨?_, ?_, ?_⟩
          · constructor
            · rintro ⟨p, hp⟩
              rw [hval] at hp
              cases hp
            · intro h
              exact absurd (h.2.2.2.1 c4.1) c4.2
          · intro e _
            simp [searchRouteDispatch, hval]
          · intro p hp
            rw [hval] at hp
            cases hp
        · by_cases c5 : (pyOr a.sort (some "relevance".data)).getD [] ∉
              ["relevance".data, "recent".data, "rating".data]
          · have hval := validateSearch_badSort a c1 c2 c3 c4 c5
            refine ⟨?_, ?_, ?_⟩
            · constructor
              · rintro ⟨p, hp⟩
                rw [hval] at hp
                cases hp
              · intro h
                exact absurd h.2.2.2.2 c5
            · intro e _
              simp [searchRouteDispatch, hval]
            · intro p hp
              rw [hval] at hp
              cases hp
          · have hval := validateSearch_ok a c1 c2 c3 c4 c5
            refine ⟨?_, ?_, ?_⟩
            · constructor
              · intro _
                refine ⟨c1, by omega, ?_, ?_, not_not.mp c5⟩
                · intro ht
                  by_contra hcon
                  exact c3 ⟨ht, hcon⟩
                · intro ht
                  by_contra hcon
                  exact c4 ⟨ht, by simpa using hcon⟩
              · intro _
                exact ⟨_, hval⟩
            · intro e he
              rw [hval] at he
              cases he
            · intro p hp
              rw [hval] at hp
              have hpv := (Except.ok.inj hp).symm
              have hb1 := parse_int_param_range a.page 1 1 10 (by norm_num)
                (by norm_num)
              have hb2 := parse_int_param_range a.per_page 10 5 10 (by norm_num)
                (by norm_num)
              refine ⟨by simp [searchRouteDispatch, hval], ?_, ?_, ?_, ?_, ?_, ?_⟩ <;>
                rw [hpv]
              · exact hb1.1
              · exact hb1.2
              · exact hb2.1
              · exact hb2.2

/-- Concrete instantiation of C4: a non-numeric year is rejected and the
pipeline is not invoked; a valid request is accepted with in-range page
values. -/
theorem claim_C4_witness :
    (searchRouteDispatch ⟨some "batman".data, none, none, none,
        some "20x5".data, none, none⟩).1 = false ∧
      (∃ p, validateSearch ⟨some "batman".data, none, none, none, none, none,
        none⟩ = .ok p) := by
  constructor
  · have h := (claim_C4_validation ⟨some "batman".data, none, none, none,
      some "20x5".data, none, none⟩).2.1
    apply h SearchError.badYear
    rfl
  · exact (claim_C4_validation ⟨some "batman".data, none, none, none, none,
      none, none⟩).1.mpr (by
        refine ⟨by decide, by decide, ?_, ?_, by decide⟩ <;> (intro h; cases h))


/-! ## Claim C3: match score bounds

`similarity_score` wraps `difflib.SequenceMatcher(None, a.lower(),
b.lower()).ratio()`.  The matcher is modelled faithfully for `isjunk=None`:
the autojunk heuristic removes popular elements from the index when the
second string has at least 200 characters; the junk set itself is empty, so
the junk-extension loops of the source are no-ops and only the two
non-junk extension loops are modelled.  The queue traversal of
`get_matching_blocks` is modelled by the equivalent recursion; the sorting,
adjacent-block merging and the terminal sentinel of the source preserve the
sum of block sizes, which is all `ratio` consumes. -/

/-- The autojunk heuristic of `difflib.SequenceMatcher.__chain_b`
(`isjunk=None`): when `len(b) >= 200`, elements occurring more than
`len(b)//100 + 1` times are dropped from the position index and never
matched by the main loop. -/
def isPopular (b : List Char) (c : Char) : Bool :=
  decide (200 ≤ b.length) && decide (b.length / 100 + 1 < b.count c)

/-- One row of the `j2len` table of `find_longest_match`:
`newj2len[j] = j2len[j-1] + 1` at matching, non-popular positions inside
`[blo, bhi)`, `0` elsewhere. -/
def nextRow (b : List Char) (blo bhi : Nat) (prev : List Nat) (c : Char) :
    List Nat :=
  (List.range b.length).map (fun j =>
    if blo ≤ j ∧ j < bhi ∧ b.getD j ' ' = c ∧
        ¬ isPopular b (b.getD j ' ') = true then
      (if j = 0 then 0 else prev.getD (j - 1) 0) + 1
    else 0)

/-- Scanning a freshly built row in ascending `j` order, replacing the best
block whenever a strictly longer match ends at `(i, j)` — exactly the
`if k > bestk` update of the source. -/
def bestUpd (i : Nat) (row : List Nat) (best : Nat × Nat × Nat) :
    Nat × Nat × Nat :=
  (List.range row.length).foldl
    (fun best j =>
      let k := row.getD j 0
      if best.2.2 < k then (i + 1 - k, j + 1 - k, k) else best)
    best

/-- The outer `for i in range(alo, ahi)` loop of `find_longest_match`. -/
def flmGo (a b : List Char) (blo bhi : Nat) :
    List Nat → List Nat → Nat × Nat × Nat → Nat × Nat × Nat
  | [], _, best => best
  | i :: is, prev, best =>
    let row := nextRow b blo bhi prev (a.getD i ' ')
    flmGo a b blo bhi is row (bestUpd i row best)

/-- The left extension loop of `find_longest_match` over matching non-junk
characters (the junk set is empty for `isjunk=None`).  The fuel only bounds
the iteration count; called with fuel `besti + 1` it can never run out
before the loop condition fails, because each step decreases `besti` and a
zero `besti` fails `alo < besti`. -/
def extendLeft (a b : List Char) (alo blo : Nat) :
    Nat → Nat × Nat × Nat → Nat × Nat × Nat
  | 0, best => best
  | fuel + 1, (besti, bestj, bestk) =>
    if alo < besti ∧ blo < bestj ∧
        a.getD (besti - 1) ' ' = b.getD (bestj - 1) ' ' then
      extendLeft a b alo blo fuel (besti - 1, bestj - 1, bestk + 1)
    else (besti, bestj, bestk)

/-- The right extension loop of `find_longest_match`; fuel `bhi + 1`
suffices because each step increases `bestj + bestk`, which the loop
condition bounds by `bhi`. -/
def extendRight (a b : List Char) (ahi bhi : Nat) :
    Nat → Nat × Nat × Nat → Nat × Nat × Nat
  | 0, best => best
  | fuel + 1, (besti, bestj, bestk) =>
    if besti + bestk < ahi ∧ bestj + bestk < bhi ∧
        a.getD (besti + bestk) ' ' = b.getD (bestj + bestk) ' ' then
      extendRight a b ahi bhi fuel (besti, bestj, bestk + 1)
    else (besti, bestj, bestk)

/-- `SequenceMatcher.find_longest_match` for `isjunk=None`. -/
def find_longest_match (a b : List Char) (alo ahi blo bhi : Nat) :
    Nat × Nat × Nat :=
  let main := flmGo a b blo bhi (List.range' alo (ahi - alo))
    (List.replicate b.length 0) (alo, blo, 0)
  let left := extendLeft a b alo blo (main.1 + 1) main
  extendRight a b ahi bhi (bhi + 1) left

/-- The recursive region traversal of `get_matching_blocks` (the source
uses an explicit queue and later sorts the collected blocks; the recursion
collects the same multiset of blocks).  The fuel `la + lb + 1` strictly
dominates the recursion depth, so it never runs out on the initial call. -/
def get_matching_blocks_go (a b : List Char) :
    Nat → Nat → Nat → Nat → Nat → List (Nat × Nat × Nat)
  | 0, _, _, _, _ => []
  | fuel + 1, alo, ahi, blo, bhi =>
    let best := find_longest_match a b alo ahi blo bhi
    if best.2.2 = 0 then []
    else
      get_matching_blocks_go a b fuel alo best.1 blo best.2.1 ++
        best :: get_matching_blocks_go a b fuel (best.1 + best.2.2) ahi
          (best.2.1 + best.2.2) bhi

/-- `SequenceMatcher.get_matching_blocks`, up to the order of blocks, the
merging of adjacent blocks and the `(la, lb, 0)` sentinel, none of which
change the total matched size. -/
def get_matching_blocks (a b : List Char) : List (Nat × Nat × Nat) :=
  get_matching_blocks_go a b (a.length + b.length + 1) 0 a.length 0 b.length

/-- `SequenceMatcher.ratio()`: `2*M / (la + lb)`, and 1 when both strings
are empty (`_calculate_ratio`). -/
def smRatio (a b : List Char) : ℚ :=
  let totalMatched : Nat := ((get_matching_blocks a b).map (fun t => t.2.2)).sum
  if a.length + b.length = 0 then 1
  else 2 * (totalMatched : ℚ) / ((a.length : ℚ) + (b.length : ℚ))

/-- `similarity_score` (services/omdb.py, lines 281-283). -/
def similarity_score (a b : PyStr) : ℚ := smRatio (pyLower a) (pyLower b)

/-- `str(x)` for an optional string: `None` prints as `"None"`. -/
def pyStrOfOpt (o : Option PyStr) : PyStr := o.getD "None".data

/-- The relevance scoring of the search route (routes/search.py, lines
140-143): fuzzy similarity between the query and the candidate title, plus
a 0.5 bonus when an explicit year filter exactly matches the candidate
year. -/
def searchScore (query : PyStr) (year_filter : Option PyStr)
    (item : Candidate) : ℚ :=
  let score := similarity_score query (item.title.getD [])
  if pyTruthy year_filter = true ∧ pyStrOfOpt item.year = year_filter.getD []
  then score + 1 / 2
  else score


/-- The invariant that a best block lies inside the region
`[alo, ahi) × [blo, bhi)`. -/
def blockInv (alo ahi blo bhi : Nat) (best : Nat × Nat × Nat) : Prop :=
  alo ≤ best.1 ∧ best.1 + best.2.2 ≤ ahi ∧ blo ≤ best.2.1 ∧
    best.2.1 + best.2.2 ≤ bhi

theorem getD_replicate_zero (n j : Nat) :
    (List.replicate n (0 : Nat)).getD j 0 = 0 := by
  rw [List.getD_eq_getElem?_getD, List.getElem?_replicate]
  split <;> rfl

theorem nextRow_getD (b : List Char) (blo bhi : Nat) (prev : List Nat)
    (c : Char) (j : Nat) :
    (nextRow b blo bhi prev c).getD j 0 =
      if j < b.length then
        (if blo ≤ j ∧ j < bhi ∧ b.getD j ' ' = c ∧
            ¬ isPopular b (b.getD j ' ') = true then
          (if j = 0 then 0 else prev.getD (j - 1) 0) + 1
        else 0)
      else 0 := by
  unfold nextRow
  by_cases hj : j < b.length
  · rw [if_pos hj, List.getD_eq_getElem?_getD, List.getElem?_map,
      List.getElem?_range hj]
    rfl
  · rw [if_neg hj, List.getD_eq_getElem?_getD, List.getElem?_map,
      List.getElem?_eq_none (by simpa using hj)]
    rfl

theorem nextRow_bound (b : List Char) (alo blo bhi i : Nat) (prev : List Nat)
    (c : Char) (hi : alo ≤ i)
    (hprev : ∀ j, prev.getD j 0 ≤ min (i - alo) (j + 1 - blo)) :
    ∀ j, (nextRow b blo bhi prev c).getD j 0 ≤ min (i + 1 - alo) (j + 1 - blo) ∧
      (0 < (nextRow b blo bhi prev c).getD j 0 → j < bhi) := by
  intro j
  rw [nextRow_getD]
  by_cases hj : j < b.length
  · rw [if_pos hj]
    by_cases hcond : blo ≤ j ∧ j < bhi ∧ b.getD j ' ' = c ∧
        ¬ isPopular b (b.getD j ' ') = true
    · rw [if_pos hcond]
      obtain ⟨h1, h2, -, -⟩ := hcond
      constructor
      · by_cases hj0 : j = 0
        · subst hj0
          rw [if_pos rfl]
          omega
        · rw [if_neg hj0]
          have := hprev (j - 1)
          omega
      · intro _
        exact h2
    · rw [if_neg hcond]
      exact ⟨by omega, by omega⟩
  · rw [if_neg hj]
    exact ⟨by omega, by omega⟩

theorem foldl_preserve {γ δ : Type} {P : γ → Prop} (f : γ → δ → γ)
    (l : List δ) (init : γ) (h0 : P init)
    (hstep : ∀ acc d, d ∈ l → P acc → P (f acc d)) : P (l.foldl f init) := by
  induction l generalizing init with
  | nil => exact h0
  | cons x xs ih =>
    exact ih (f init x) (hstep init x (by simp) h0)
      (fun acc d hd hacc => hstep acc d (by simp [hd]) hacc)

theorem bestUpd_inv {alo ahi blo bhi i : Nat} {row : List Nat}
    {best : Nat × Nat × Nat}
    (hrow : ∀ j, row.getD j 0 ≤ min (i + 1 - alo) (j + 1 - blo) ∧
      (0 < row.getD j 0 → j < bhi))
    (hiahi : i < ahi) (hialo : alo ≤ i)
    (hbest : blockInv alo ahi blo bhi best) :
    blockInv alo ahi blo bhi (bestUpd i row best) := by
  unfold bestUpd
  apply foldl_preserve _ _ _ hbest
  intro acc j _ hacc
  dsimp only
  by_cases hlt : acc.2.2 < row.getD j 0
  · rw [if_pos hlt]
    have h1 := (hrow j).1
    have h2 := (hrow j).2 (by omega)
    unfold blockInv at hacc ⊢
    dsimp only
    omega
  · rw [if_neg hlt]
    exact hacc

theorem flmGo_inv (a b : List Char) (alo ahi blo bhi : Nat) :
    ∀ (n i : Nat) (prev : List Nat) (best : Nat × Nat × Nat),
      alo ≤ i → i + n ≤ ahi →
      (∀ j, prev.getD j 0 ≤ min (i - alo) (j + 1 - blo)) →
      blockInv alo ahi blo bhi best →
      blockInv alo ahi blo bhi
        (flmGo a b blo bhi (List.range' i n) prev best) := by
  intro n
  induction n with
  | zero =>
    intro i prev best _ _ _ hbest
    simpa [flmGo] using hbest
  | succ m ih =>
    intro i prev best hialo hin hprev hbest
    rw [List.range'_succ, flmGo]
    apply ih (i + 1)
    · omega
    · omega
    · intro j
      have := (nextRow_bound b alo blo bhi i prev (a.getD i ' ') hialo hprev j).1
      omega
    · exact bestUpd_inv (nextRow_bound b alo blo bhi i prev (a.getD i ' ')
        hialo hprev) (by omega) hialo hbest

theorem extendLeft_inv (a b : List Char) {alo ahi blo bhi : Nat} :
    ∀ (fuel : Nat) (best : Nat × Nat × Nat), blockInv alo ahi blo bhi best →
      blockInv alo ahi blo bhi (extendLeft a b alo blo fuel best) := by
  intro fuel
  induction fuel with
  | zero =>
    intro best h
    simpa [extendLeft] using h
  | succ m ih =>
    rintro ⟨bi, bj, bk⟩ h
    rw [extendLeft]
    by_cases hc : alo < bi ∧ blo < bj ∧
        a.getD (bi - 1) ' ' = b.getD (bj - 1) ' '
    · rw [if_pos hc]
      apply ih
      unfold blockInv at h ⊢
      dsimp only at h ⊢
      omega
    · rw [if_neg hc]
      exact h

theorem extendRight_inv (a b : List Char) {alo ahi blo bhi : Nat} :
    ∀ (fuel : Nat) (best : Nat × Nat × Nat), blockInv alo ahi blo bhi best →
      blockInv alo ahi blo bhi (extendRight a b ahi bhi fuel best) := by
  intro fuel
  induction fuel with
  | zero =>
    intro best h
    simpa [extendRight] using h
  | succ m ih =>
    rintro ⟨bi, bj, bk⟩ h
    rw [extendRight]
    by_cases hc : bi + bk < ahi ∧ bj + bk < bhi ∧
        a.getD (bi + bk) ' ' = b.getD (bj + bk) ' '
    · rw [if_pos hc]
      apply ih
      unfold blockInv at h ⊢
      dsimp only at h ⊢
      omega
    · rw [if_neg hc]
      exact h

theorem find_longest_match_inv (a b : List Char) (alo ahi blo bhi : Nat)
    (h1 : alo ≤ ahi) (h2 : blo ≤ bhi) :
    blockInv alo ahi blo bhi (find_longest_match a b alo ahi blo bhi) := by
  unfold find_longest_match
  apply extendRight_inv
  apply extendLeft_inv
  apply flmGo_inv a b alo ahi blo bhi (ahi - alo) alo _ _ (le_refl _) (by omega)
  · intro j
    rw [getD_replicate_zero]
    omega
  · unfold blockInv
    dsimp only
    omega

theorem blocks_sum_le (a b : List Char) :
    ∀ (fuel alo ahi blo bhi : Nat), alo ≤ ahi → blo ≤ bhi →
      ((get_matching_blocks_go a b fuel alo ahi blo bhi).map
        (fun t => t.2.2)).sum ≤ min (ahi - alo) (bhi - blo) := by
  intro fuel
  induction fuel with
  | zero =>
    intro alo ahi blo bhi _ _
    simp [get_matching_blocks_go]
  | succ m ih =>
    intro alo ahi blo bhi h1 h2
    rw [get_matching_blocks_go]
    have hinv := find_longest_match_inv a b alo ahi blo bhi h1 h2
    by_cases hk : (find_longest_match a b alo ahi blo bhi).2.2 = 0
    · rw [if_pos hk]
      simp
    · rw [if_neg hk]
      simp only [List.map_append, List.map_cons, List.sum_append, List.sum_cons]
      unfold blockInv at hinv
      have hL := ih alo (find_longest_match a b alo ahi blo bhi).1 blo
        (find_longest_match a b alo ahi blo bhi).2.1
        (by omega) (by omega)
      have hR := ih ((find_longest_match a b alo ahi blo bhi).1 +
          (find_longest_match a b alo ahi blo bhi).2.2) ahi
        ((find_longest_match a b alo ahi blo bhi).2.1 +
          (find_longest_match a b alo ahi blo bhi).2.2) bhi
        (by omega) (by omega)
      omega

theorem smRatio_bounds (a b : List Char) : 0 ≤ smRatio a b ∧ smRatio a b ≤ 1 := by
  unfold smRatio
  by_cases h0 : a.length + b.length = 0
  · rw [if_pos h0]
    norm_num
  · rw [if_neg h0]
    have hsum : ((get_matching_blocks a b).map (fun t => t.2.2)).sum ≤
        min a.length b.length := by
      have := blocks_sum_le a b (a.length + b.length + 1) 0 a.length 0 b.length
        (by omega) (by omega)
      simpa [get_matching_blocks] using this
    have hden : (0 : ℚ) < (a.length : ℚ) + (b.length : ℚ) := by
      have hpos : 0 < a.length + b.length := Nat.pos_of_ne_zero h0
      exact_mod_cast hpos
    constructor
    · apply div_nonneg _ (le_of_lt hden)
      positivity
    · rw [div_le_one hden]
      have h2 : 2 * ((get_matching_blocks a b).map (fun t => t.2.2)).sum ≤
          a.length + b.length := by omega
      exact_mod_cast h2

/-- C3 counterexample: with query `"a"`, an exact-match candidate title
`"A"` and a year filter equal to the candidate year, the similarity ratio
is 1.0 and the year bonus pushes the match score to 1.5, outside `[0, 1]`. -/
theorem claim_C3_counterexample :
    searchScore "a".data (some "2009".data)
        ⟨some "A".data, some "2009".data, none, none⟩ = 3 / 2 ∧
      ¬ (searchScore "a".data (some "2009".data)
        ⟨some "A".data, some "2009".data, none, none⟩ ≤ 1) := by
  have hb : get_matching_blocks (pyLower "a".data) (pyLower "A".data) =
      [(0, 0, 1)] := by decide
  have hs : similarity_score "a".data "A".data = 1 := by
    unfold similarity_score
    rw [show pyLower "a".data = "a".data from by decide,
      show pyLower "A".data = "a".data from by decide]
    unfold smRatio
    rw [show get_matching_blocks "a".data "a".data = [(0, 0, 1)] from by decide,
      show ("a".data).length = 1 from rfl]
    norm_num
  have hsc : searchScore "a".data (some "2009".data)
      ⟨some "A".data, some "2009".data, none, none⟩ = 3 / 2 := by
    unfold searchScore
    rw [if_pos (by exact ⟨by decide, by decide⟩)]
    have : (⟨some "A".data, some "2009".data, none, none⟩ :
        Candidate).title.getD [] = "A".data := rfl
    rw [this, hs]
    norm_num
  refine ⟨hsc, ?_⟩
  rw [hsc]
  norm_num

/-- C3 (corrected): the match score of every free-text search result lies
in `[0, 1.5]`, not `[0, 1]`: the similarity ratio itself is a rational in
`[0, 1]` (the total matched size never exceeds either string length), and
the exact-year bonus adds a further 0.5. -/
theorem claim_C3_match_score (query : PyStr) (year_filter : Option PyStr)
    (item : Candidate) :
    0 ≤ searchScore query year_filter item ∧
      searchScore query year_filter item ≤ 3 / 2 := by
  have hb := smRatio_bounds (pyLower query) (pyLower (item.title.getD []))
  unfold searchScore similarity_score
  by_cases hc : pyTruthy year_filter = true ∧
      pyStrOfOpt item.year = year_filter.getD []
  · rw [if_pos hc]
    constructor
    · linarith [hb.1]
    · linarith [hb.2]
  · rw [if_neg hc]
    exact ⟨hb.1, le_trans hb.2 (by norm_num)⟩


/-! ## JSON serialization (json.dumps / json.loads)

The detail payloads the cache stores are JSON trees of strings, arrays and
objects (every OMDb detail field is a string; `Ratings` is a list of
string-valued objects).  `dumps` is modelled with its default separators
`", "` / `": "` and quote/backslash escaping; control and non-ASCII
characters, which `dumps` would `\uXXXX`-escape, do not occur in the
modelled payloads.  `loads` is a recursive-descent parser for the same
grammar with arbitrary whitespace between tokens; `none` models a raised
`JSONDecodeError`. -/

/-- The JSON trees stored in the detail cache. -/
inductive Json where
  | str : List Char → Json
  | arr : List Json → Json
  | obj : List (List Char × Json) → Json

/-- String escaping of `json.dumps` on the printable-ASCII payloads. -/
def escChars : List Char → List Char
  | [] => []
  | c :: cs =>
    if c = '"' ∨ c = '\\' then '\\' :: c :: escChars cs else c :: escChars cs

mutual
/-- `json.dumps` with the default separators. -/
def dumpJson : Json → List Char
  | .str s => '"' :: escChars s ++ ['"']
  | .arr l => '[' :: dumpArr l ++ [']']
  | .obj l => '{' :: dumpObj l ++ ['}']

def dumpArr : List Json → List Char
  | [] => []
  | v :: vs => dumpJson v ++ dumpArrRest vs

def dumpArrRest : List Json → List Char
  | [] => []
  | v :: vs => ',' :: ' ' :: dumpJson v ++ dumpArrRest vs

def dumpObj : List (List Char × Json) → List Char
  | [] => []
  | p :: ps => dumpPair p ++ dumpObjRest ps

def dumpObjRest : List (List Char × Json) → List Char
  | [] => []
  | p :: ps => ',' :: ' ' :: dumpPair p ++ dumpObjRest ps

def dumpPair : List Char × Json → List Char
  | (k, v) => '"' :: escChars k ++ '"' :: ':' :: ' ' :: dumpJson v
end

/-- JSON inter-token whitespace. -/
def jsonWs (c : Char) : Bool :=
  c == ' ' || c == '\t' || c == '\n' || c == '\r'

def skipWs (l : List Char) : List Char := l.dropWhile jsonWs

/-- Body of a string literal after the opening quote, undoing the
quote/backslash escapes. -/
def parseStrBody : List Char → Option (List Char × List Char)
  | [] => none
  | '"' :: rest => some ([], rest)
  | '\\' :: c :: rest =>
    if c = '"' ∨ c = '\\' then
      (parseStrBody rest).map (fun p => (c :: p.1, p.2))
    else none
  | c :: rest => (parseStrBody rest).map (fun p => (c :: p.1, p.2))

mutual
/-- One JSON value, with leading whitespace skipped. -/
def parseJson : Nat → List Char → Option (Json × List Char)
  | 0, _ => none
  | fuel + 1, cs =>
    match skipWs cs with
    | '"' :: rest => (parseStrBody rest).map (fun p => (Json.str p.1, p.2))
    | '[' :: rest =>
      if (skipWs rest).head? = some ']' then some (Json.arr [], (skipWs rest).tail)
      else (parseArrItems fuel rest).map (fun p => (Json.arr p.1, p.2))
    | '{' :: rest =>
      if (skipWs rest).head? = some '}' then some (Json.obj [], (skipWs rest).tail)
      else (parseObjItems fuel rest).map (fun p => (Json.obj p.1, p.2))
    | _ => none

/-- One or more comma-separated array items followed by `]`. -/
def parseArrItems : Nat → List Char → Option (List Json × List Char)
  | 0, _ => none
  | fuel + 1, cs => do
    let p ← parseJson fuel cs
    match skipWs p.2 with
    | ',' :: r2 => do
      let q ← parseArrItems fuel r2
      some (p.1 :: q.1, q.2)
    | ']' :: r2 => some ([p.1], r2)
    | _ => none

/-- One or more comma-separated `"key": value` pairs followed by `}`. -/
def parseObjItems : Nat → List Char →
    Option (List (List Char × Json) × List Char)
  | 0, _ => none
  | fuel + 1, cs =>
    match skipWs cs with
    | '"' :: rest => do
      let k ← parseStrBody rest
      match skipWs k.2 with
      | ':' :: r2 => do
        let v ← parseJson fuel r2
        match skipWs v.2 with
        | ',' :: r3 => do
          let q ← parseObjItems fuel r3
          some ((k.1, v.1) :: q.1, q.2)
        | '}' :: r3 => some ([(k.1, v.1)], r3)
        | _ => none
      | _ => none
    | _ => none
end

/-- `json.loads`, specialised to the tree shapes above; the fuel strictly
dominates the nesting depth of any parseable input, so it never runs out. -/
def jsonLoads (s : List Char) : Option Json :=
  match parseJson (s.length + 1) s with
  | some p => if skipWs p.2 = [] then some p.1 else none
  | none => none



theorem parseJson_quote (f : Nat) (r : List Char) :
    parseJson (f + 1) ('"' :: r) =
      (parseStrBody r).map (fun p => (Json.str p.1, p.2)) := rfl

theorem parseJson_lbrack (f : Nat) (r : List Char) :
    parseJson (f + 1) ('[' :: r) =
      if (skipWs r).head? = some ']' then some (Json.arr [], (skipWs r).tail)
      else (parseArrItems f r).map (fun p => (Json.arr p.1, p.2)) := rfl

theorem parseJson_lbrace (f : Nat) (r : List Char) :
    parseJson (f + 1) ('{' :: r) =
      if (skipWs r).head? = some '}' then some (Json.obj [], (skipWs r).tail)
      else (parseObjItems f r).map (fun p => (Json.obj p.1, p.2)) := rfl

theorem parseArrItems_succ (f : Nat) (cs : List Char) :
    parseArrItems (f + 1) cs = (do
      let p ← parseJson f cs
      match skipWs p.2 with
      | ',' :: r2 => do
        let q ← parseArrItems f r2
        some (p.1 :: q.1, q.2)
      | ']' :: r2 => some ([p.1], r2)
      | _ => none) := rfl

theorem parseObjItems_quote (f : Nat) (r : List Char) :
    parseObjItems (f + 1) ('"' :: r) = (do
      let k ← parseStrBody r
      match skipWs k.2 with
      | ':' :: r2 => do
        let v ← parseJson f r2
        match skipWs v.2 with
        | ',' :: r3 => do
          let q ← parseObjItems f r3
          some ((k.1, v.1) :: q.1, q.2)
        | '}' :: r3 => some ([(k.1, v.1)], r3)
        | _ => none
      | _ => none) := rfl

theorem dumpJson_length (v : Json) : 2 ≤ (dumpJson v).length := by
  cases v <;> rw [dumpJson] <;> simp

theorem parseStrBody_esc : ∀ (s rest : List Char),
    parseStrBody (escChars s ++ '"' :: rest) = some (s, rest) := by
  intro s
  induction s with
  | nil =>
    intro rest
    rfl
  | cons c cs ih =>
    intro rest
    by_cases hc : c = '"' ∨ c = '\\'
    · rw [escChars, if_pos hc]
      show parseStrBody ('\\' :: c :: (escChars cs ++ '"' :: rest)) = _
      rw [parseStrBody, if_pos hc, ih]
      rfl
    · rw [escChars, if_neg hc]
      push_neg at hc
      show parseStrBody (c :: (escChars cs ++ '"' :: rest)) = _
      rcases hcs : escChars cs ++ '"' :: rest with _ | ⟨d, t⟩
      · exact absurd (List.append_eq_nil.mp hcs).2 (List.cons_ne_nil _ _)
      · rw [parseStrBody.eq_def]
        split
        · rename_i heq
          exact absurd heq (List.cons_ne_nil _ _)
        · rename_i heq
          exact absurd (List.cons.inj heq).1 hc.1
        · rename_i heq
          exact absurd (List.cons.inj heq).1 hc.2
        · rename_i heq
          obtain ⟨h1, h2⟩ := List.cons.inj heq
          subst h1
          rw [← h2, ← hcs, ih]
          rfl

theorem skipWs_cons_of_neg {c : Char} (h : jsonWs c = false) (l : List Char) :
    skipWs (c :: l) = c :: l := by
  simp [skipWs, List.dropWhile_cons, h]

theorem skipWs_space (l : List Char) : skipWs (' ' :: l) = skipWs l := by
  show List.dropWhile jsonWs (' ' :: l) = List.dropWhile jsonWs l
  rw [List.dropWhile_cons, if_pos (show jsonWs ' ' = true from by decide)]

theorem skipWs_idem (l : List Char) : skipWs (skipWs l) = skipWs l := by
  induction l with
  | nil => rfl
  | cons c cs ih =>
    by_cases hc : jsonWs c
    · have : skipWs (c :: cs) = skipWs cs := by
        simp [skipWs, List.dropWhile_cons, hc]
      rw [this, ih]
    · have hcf : jsonWs c = false := by
        cases h : jsonWs c
        · rfl
        · exact absurd h hc
      rw [skipWs_cons_of_neg hcf, skipWs_cons_of_neg hcf]

theorem parseJson_skipWs (fuel : Nat) (cs : List Char) :
    parseJson fuel (skipWs cs) = parseJson fuel cs := by
  cases fuel with
  | zero => rfl
  | succ f => simp only [parseJson, skipWs_idem]

theorem parseArrItems_skipWs (fuel : Nat) (cs : List Char) :
    parseArrItems fuel (skipWs cs) = parseArrItems fuel cs := by
  cases fuel with
  | zero => rfl
  | succ f => simp only [parseArrItems, parseJson_skipWs]

theorem parseObjItems_skipWs (fuel : Nat) (cs : List Char) :
    parseObjItems fuel (skipWs cs) = parseObjItems fuel cs := by
  cases fuel with
  | zero => rfl
  | succ f => simp only [parseObjItems, skipWs_idem]

theorem dumpJson_cons (v : Json) :
    ∃ c t, dumpJson v = c :: t ∧ (c = '"' ∨ c = '[' ∨ c = '{') := by
  cases v with
  | str s => exact ⟨'"', escChars s ++ ['"'], by simp [dumpJson], by simp⟩
  | arr l => exact ⟨'[', dumpArr l ++ [']'], by simp [dumpJson], by simp⟩
  | obj l => exact ⟨'{', dumpObj l ++ ['}'], by simp [dumpJson], by simp⟩

theorem parse_dump_all : ∀ fuel : Nat,
    (∀ v rest, (dumpJson v).length ≤ fuel →
      parseJson fuel (dumpJson v ++ rest) = some (v, rest)) ∧
    (∀ l rest, l ≠ [] → (dumpArr l).length + 1 ≤ fuel →
      parseArrItems fuel (dumpArr l ++ ']' :: rest) = some (l, rest)) ∧
    (∀ l rest, l ≠ [] → (dumpObj l).length + 1 ≤ fuel →
      parseObjItems fuel (dumpObj l ++ '}' :: rest) = some (l, rest)) := by
  intro fuel
  induction fuel with
  | zero =>
    refine ⟨?_, ?_, ?_⟩
    · intro v rest hsz
      have := dumpJson_length v
      omega
    · intro l rest hne hsz
      omega
    · intro l rest hne hsz
      omega
  | succ f ih =>
    obtain ⟨ih1, ih2, ih3⟩ := ih
    have mainJ : ∀ v rest, (dumpJson v).length ≤ f + 1 →
        parseJson (f + 1) (dumpJson v ++ rest) = some (v, rest) := by
      intro v rest hsz
      cases v with
      | str s =>
        rw [show dumpJson (Json.str s) ++ rest =
            '"' :: (escChars s ++ '"' :: rest) by rw [dumpJson]; simp]
        rw [parseJson_quote, parseStrBody_esc]
        rfl
      | arr l =>
        cases l with
        | nil =>
          rw [show dumpJson (Json.arr []) ++ rest = '[' :: ']' :: rest by
            rw [dumpJson, dumpArr]; simp]
          rw [parseJson_lbrack, skipWs_cons_of_neg (by decide)]
          simp
        | cons x xs =>
          obtain ⟨c, t, hct, hc⟩ := dumpJson_cons x
          have hin : dumpJson (Json.arr (x :: xs)) ++ rest =
              '[' :: (dumpArr (x :: xs) ++ ']' :: rest) := by
            rw [dumpJson]
            simp
          rw [hin, parseJson_lbrack]
          have harr : dumpArr (x :: xs) ++ ']' :: rest =
              c :: (t ++ dumpArrRest xs ++ ']' :: rest) := by
            rw [dumpArr, hct]
            simp
          have hcw : jsonWs c = false := by
            rcases hc with rfl | rfl | rfl <;> decide
          have hsk : skipWs (dumpArr (x :: xs) ++ ']' :: rest) =
              c :: (t ++ dumpArrRest xs ++ ']' :: rest) := by
            rw [harr, skipWs_cons_of_neg hcw]
          rw [hsk]
          have hcne : ¬ ((c :: (t ++ dumpArrRest xs ++ ']' :: rest)).head? =
              some ']') := by
            rcases hc with rfl | rfl | rfl <;> simp
          rw [if_neg hcne]
          rw [ih2 (x :: xs) rest (by simp) (by
            rw [dumpJson] at hsz
            simp at hsz
            omega)]
          rfl
      | obj l =>
        cases l with
        | nil =>
          rw [show dumpJson (Json.obj []) ++ rest = '{' :: '}' :: rest by
            rw [dumpJson, dumpObj]; simp]
          rw [parseJson_lbrace, skipWs_cons_of_neg (by decide)]
          simp
        | cons p ps =>
          have hin : dumpJson (Json.obj (p :: ps)) ++ rest =
              '{' :: (dumpObj (p :: ps) ++ '}' :: rest) := by
            rw [dumpJson]
            simp
          rw [hin, parseJson_lbrace]
          have hobj : dumpObj (p :: ps) ++ '}' :: rest =
              '"' :: (escChars p.1 ++ '"' :: ':' :: ' ' :: dumpJson p.2 ++
                dumpObjRest ps ++ '}' :: rest) := by
            rw [dumpObj, show dumpPair p = '"' :: escChars p.1 ++ '"' :: ':' ::
              ' ' :: dumpJson p.2 from by rw [show p = (p.1, p.2) from rfl,
                dumpPair]]
            simp
          have hsk : skipWs (dumpObj (p :: ps) ++ '}' :: rest) =
              '"' :: (escChars p.1 ++ '"' :: ':' :: ' ' :: dumpJson p.2 ++
                dumpObjRest ps ++ '}' :: rest) := by
            rw [hobj, skipWs_cons_of_neg (by decide)]
          rw [hsk]
          rw [if_neg (by simp)]
          rw [ih3 (p :: ps) rest (by simp) (by
            rw [dumpJson] at hsz
            simp at hsz
            omega)]
          rfl
    refine ⟨mainJ, ?_, ?_⟩
    · intro l rest hne hsz
      cases l with
      | nil => exact absurd rfl hne
      | cons x xs =>
        rw [dumpArr] at hsz
        simp at hsz
        have hszx : (dumpJson x).length ≤ f := by omega
        have harr : dumpArr (x :: xs) ++ ']' :: rest =
            dumpJson x ++ (dumpArrRest xs ++ ']' :: rest) := by
          rw [dumpArr]
          simp
        rw [harr, parseArrItems_succ, ih1 x _ hszx]
        show (match skipWs (dumpArrRest xs ++ ']' :: rest) with
          | ',' :: r2 => do
            let q ← parseArrItems f r2
            some (x :: q.1, q.2)
          | ']' :: r2 => some ([x], r2)
          | _ => none) = some (x :: xs, rest)
        cases xs with
        | nil =>
          rw [show dumpArrRest ([] : List Json) ++ ']' :: rest =
            ']' :: rest from by rw [dumpArrRest]; simp]
          rw [skipWs_cons_of_neg (by decide)]
          rfl
        | cons y ys =>
          rw [show dumpArrRest (y :: ys) ++ ']' :: rest =
              ',' :: ' ' :: (dumpArr (y :: ys) ++ ']' :: rest) from by
            rw [dumpArrRest, dumpArr]
            simp]
          rw [skipWs_cons_of_neg (by decide)]
          show (do
              let q ← parseArrItems f (' ' :: (dumpArr (y :: ys) ++
                ']' :: rest))
              some (x :: q.1, q.2) :
            Option (List Json × List Char)) = some (x :: y :: ys, rest)
          have hrec : parseArrItems f (' ' :: (dumpArr (y :: ys) ++
              ']' :: rest)) = some (y :: ys, rest) := by
            rw [← parseArrItems_skipWs, skipWs_space, parseArrItems_skipWs]
            apply ih2 (y :: ys) rest (by simp)
            have hrest : (dumpArrRest (y :: ys)).length =
                2 + (dumpArr (y :: ys)).length := by
              rw [dumpArrRest, dumpArr]
              simp
              omega
            have := dumpJson_length x
            omega
          rw [hrec]
          rfl
    · intro l rest hne hsz
      cases l with
      | nil => exact absurd rfl hne
      | cons p ps =>
        have hpair : (dumpPair p).length =
            (escChars p.1).length + (dumpJson p.2).length + 4 := by
          rw [show p = (p.1, p.2) from rfl, dumpPair]
          simp
          omega
        rw [dumpObj] at hsz
        simp only [List.length_append] at hsz
        have hszp : (dumpJson p.2).length ≤ f := by omega
        have hobj : dumpObj (p :: ps) ++ '}' :: rest =
            '"' :: (escChars p.1 ++ '"' :: ':' :: ' ' :: (dumpJson p.2 ++
              (dumpObjRest ps ++ '}' :: rest))) := by
          rw [dumpObj, show dumpPair p = '"' :: escChars p.1 ++ '"' :: ':' ::
            ' ' :: dumpJson p.2 from by rw [show p = (p.1, p.2) from rfl,
              dumpPair]]
          simp
        rw [hobj, parseObjItems_quote, parseStrBody_esc]
        show (do
            let v ← parseJson f (' ' :: (dumpJson p.2 ++
              (dumpObjRest ps ++ '}' :: rest)))
            match skipWs v.2 with
            | ',' :: r3 => do
              let q ← parseObjItems f r3
              some ((p.1, v.1) :: q.1, q.2)
            | '}' :: r3 => some ([(p.1, v.1)], r3)
            | _ => none :
          Option (List (List Char × Json) × List Char)) = some (p :: ps, rest)
        have hv : parseJson f (' ' :: (dumpJson p.2 ++
            (dumpObjRest ps ++ '}' :: rest))) =
            some (p.2, dumpObjRest ps ++ '}' :: rest) := by
          rw [← parseJson_skipWs, skipWs_space, parseJson_skipWs]
          exact ih1 p.2 _ hszp
        rw [hv]
        show (match skipWs (dumpObjRest ps ++ '}' :: rest) with
          | ',' :: r3 => do
            let q ← parseObjItems f r3
            some ((p.1, p.2) :: q.1, q.2)
          | '}' :: r3 => some ([(p.1, p.2)], r3)
          | _ => none) = some (p :: ps, rest)
        cases ps with
        | nil =>
          rw [show dumpObjRest ([] : List (List Char × Json)) ++ '}' :: rest =
            '}' :: rest from by rw [dumpObjRest]; simp]
          rw [skipWs_cons_of_neg (by decide)]
          rfl
        | cons q qs =>
          rw [show dumpObjRest (q :: qs) ++ '}' :: rest =
              ',' :: ' ' :: (dumpObj (q :: qs) ++ '}' :: rest) from by
            rw [dumpObjRest, dumpObj]
            simp]
          rw [skipWs_cons_of_neg (by decide)]
          show (do
              let q2 ← parseObjItems f (' ' :: (dumpObj (q :: qs) ++
                '}' :: rest))
              some ((p.1, p.2) :: q2.1, q2.2) :
            Option (List (List Char × Json) × List Char)) =
            some (p :: q :: qs, rest)
          have hrec : parseObjItems f (' ' :: (dumpObj (q :: qs) ++
              '}' :: rest)) = some (q :: qs, rest) := by
            rw [← parseObjItems_skipWs, skipWs_space, parseObjItems_skipWs]
            apply ih3 (q :: qs) rest (by simp)
            have hrest : (dumpObjRest (q :: qs)).length =
                2 + (dumpObj (q :: qs)).length := by
              rw [dumpObjRest, dumpObj]
              simp
              omega
            omega
          rw [hrec]
          rfl

/-- Serialize-then-deserialize is the identity on the payload trees. -/
theorem jsonLoads_dumpJson (v : Json) : jsonLoads (dumpJson v) = some v := by
  unfold jsonLoads
  have h := (parse_dump_all ((dumpJson v).length + 1)).1 v [] (by omega)
  rw [List.append_nil] at h
  rw [h]
  rfl

/-! ## Claim C8: cache-aside detail lookups (fetch_movie_details)

`fetch_movie_details` (services/omdb.py, lines 315-357) reads the redis
cache under `omdb:detail:{identifier.lower()}`; a truthy cached string is
`json.loads`-decoded and returned with the cache-hit flag set, without any
provider request (a decode failure is swallowed by the bare `except` and
falls through to the provider).  On a miss the provider detail endpoint is
requested: transport errors (`RequestException`), JSON-decode errors
(`ValueError`) and payloads whose `Response` field is not `"True"` yield
`(None, False, message)`; a successful payload is stored with
`setex(key, 600, json.dumps(payload))` and returned with the flag clear. -/

/-- A redis cache state: `(key, ttl, value)` entries, most recent write
first (`setex` prepends, `get` reads the first match). -/
abbrev Cache := List (PyStr × Nat × PyStr)

/-- `cache_client.get(key)`. -/
def cacheGet (c : Cache) (k : PyStr) : Option PyStr :=
  (c.find? (fun e => e.1 == k)).map (fun e => e.2.2)

/-- `cache_client.setex(key, ttl, value)`. -/
def cacheSetex (c : Cache) (k : PyStr) (ttl : Nat) (v : PyStr) : Cache :=
  (k, ttl, v) :: c

/-- The outcome of `requests.get` + `response.json()` on the detail
endpoint: a transport error (`requests.exceptions.RequestException`), a
JSON-decode error (`ValueError`), or a decoded payload dict. -/
inductive ProviderOutcome where
  | requestError : ProviderOutcome
  | invalidJson : ProviderOutcome
  | ok : List (PyStr × Json) → ProviderOutcome

/-- `payload.get(k)` on a decoded JSON object. -/
def dictGet (d : List (PyStr × Json)) (k : PyStr) : Option Json :=
  (d.find? (fun p => p.1 == k)).map (fun p => p.2)

/-- Whether a fetched field is exactly the string `"True"` (the negation of
the guard `payload.get("Response") != "True"`). -/
def isTrueStr (o : Option Json) : Bool :=
  match o with
  | some (Json.str s) => s == "True".data
  | _ => false

/-- `payload.get(k, default)` for the string-valued payload fields. -/
def dictGetStrD (d : List (PyStr × Json)) (k dflt : PyStr) : PyStr :=
  match dictGet d k with
  | some (Json.str s) => s
  | _ => dflt

/-- `f"omdb:detail:{identifier.lower()}"`. -/
def detailCacheKey (identifier : PyStr) : PyStr :=
  "omdb:detail:".data ++ pyLower identifier

/-- The observable result of one `fetch_movie_details` call: the returned
`(payload, cache_hit, error_msg)` tuple, the cache state after the call,
and whether the provider detail endpoint was requested. -/
structure FetchResult where
  payload : Option Json
  cacheHit : Bool
  errorMsg : Option PyStr
  cache : Option Cache
  providerCalled : Bool

/-- The provider branch of `fetch_movie_details` (services/omdb.py, lines
328-357), reached when the cache held nothing usable. -/
def fetchFromProvider (cache : Option Cache) (provider : ProviderOutcome)
    (cacheKey : PyStr) : FetchResult :=
  match provider with
  | ProviderOutcome.requestError =>
    ⟨none, false, some "Network error while fetching movie details".data,
      cache, true⟩
  | ProviderOutcome.invalidJson =>
    ⟨none, false, some "Invalid response from OMDb API".data, cache, true⟩
  | ProviderOutcome.ok payload =>
    if isTrueStr (dictGet payload "Response".data) = false then
      ⟨none, false,
        some (dictGetStrD payload "Error".data
          "Movie not found in OMDb database".data), cache, true⟩
    else
      match cache with
      | some c =>
        ⟨some (Json.obj payload), false, none,
          some (cacheSetex c cacheKey 600 (dumpJson (Json.obj payload))),
          true⟩
      | none => ⟨some (Json.obj payload), false, none, none, true⟩

/-- `fetch_movie_details` (services/omdb.py, lines 315-357).  The provider
outcome for this identifier is passed as an argument in place of the live
HTTP request. -/
def fetch_movie_details (cache : Option Cache) (provider : ProviderOutcome)
    (identifier : PyStr) : FetchResult :=
  let cacheKey := detailCacheKey identifier
  match cache with
  | some c =>
    match cacheGet c cacheKey with
    | some v =>
      if v.isEmpty then fetchFromProvider (some c) provider cacheKey
      else
        match jsonLoads v with
        | some j => ⟨some j, true, none, some c, false⟩
        | none => fetchFromProvider (some c) provider cacheKey
    | none => fetchFromProvider (some c) provider cacheKey
  | none => fetchFromProvider none provider cacheKey


/-- C8: a detail lookup for an identifier whose detail is already cached
returns the stored tree (serialize-then-deserialize is the identity: the
third conjunct), reports a cache hit, and never reaches the provider; on a
cache miss with a successful provider payload the result is stored under
the detail key with the standard 600-second TTL and the cache-hit flag is
false. -/
theorem claim_C8_cache_aside (c : Cache) (provider : ProviderOutcome)
    (identifier : PyStr) (j : Json) (d : List (PyStr × Json)) :
    (cacheGet c (detailCacheKey identifier) = some (dumpJson j) →
      fetch_movie_details (some c) provider identifier =
        ⟨some j, true, none, some c, false⟩) ∧
    (cacheGet c (detailCacheKey identifier) = none →
      isTrueStr (dictGet d "Response".data) = true →
      fetch_movie_details (some c) (ProviderOutcome.ok d) identifier =
        ⟨some (Json.obj d), false, none,
          some (cacheSetex c (detailCacheKey identifier) 600
            (dumpJson (Json.obj d))), true⟩) ∧
    jsonLoads (dumpJson j) = some j := by
  refine ⟨?_, ?_, jsonLoads_dumpJson j⟩
  · intro h
    have hne : (dumpJson j).isEmpty = false := by
      have h2 := dumpJson_length j
      cases hd : dumpJson j with
      | nil => rw [hd] at h2; simp at h2
      | cons a l => rfl
    simp only [fetch_movie_details, h, hne, jsonLoads_dumpJson j,
      Bool.false_eq_true, if_false]
  · intro h ht
    simp only [fetch_movie_details, h, fetchFromProvider, ht,
      Bool.true_eq_false, if_false]

/-- Witness for C8 at concrete inputs: a one-entry cache holding the dumped
detail of `tt1` is hit without a provider call, and an empty cache with a
successful provider payload stores it with TTL 600. -/
theorem claim_C8_witness :
    cacheGet [("omdb:detail:tt1".data, 600,
        dumpJson (Json.obj [("Title".data, Json.str "X".data)]))]
      (detailCacheKey "TT1".data) =
      some (dumpJson (Json.obj [("Title".data, Json.str "X".data)])) ∧
    fetch_movie_details
      (some [("omdb:detail:tt1".data, 600,
        dumpJson (Json.obj [("Title".data, Json.str "X".data)]))])
      ProviderOutcome.requestError "TT1".data =
      ⟨some (Json.obj [("Title".data, Json.str "X".data)]), true, none,
        some [("omdb:detail:tt1".data, 600,
          dumpJson (Json.obj [("Title".data, Json.str "X".data)]))],
        false⟩ ∧
    cacheGet [] (detailCacheKey "tt2".data) = none ∧
    isTrueStr (dictGet [("Response".data, Json.str "True".data)]
      "Response".data) = true ∧
    fetch_movie_details (some [])
      (ProviderOutcome.ok [("Response".data, Json.str "True".data)])
      "tt2".data =
      ⟨some (Json.obj [("Response".data, Json.str "True".data)]), false,
        none,
        some (cacheSetex [] (detailCacheKey "tt2".data) 600
          (dumpJson (Json.obj [("Response".data, Json.str "True".data)]))),
        true⟩ := by
  refine ⟨rfl, ?_, rfl, rfl, ?_⟩
  · exact (claim_C8_cache_aside _ ProviderOutcome.requestError _
      (Json.obj [("Title".data, Json.str "X".data)]) []).1 rfl
  · exact (claim_C8_cache_aside []
      (ProviderOutcome.ok [("Response".data, Json.str "True".data)]) _
      (Json.obj []) [("Response".data, Json.str "True".data)]).2.1 rfl rfl

/-! ## Claim C1: detail enrichment of free-text search

routes/search.py, lines 146-178: for each scored candidate the loop runs
`detail, _ = fetch_movie_details(cache_client, omdb_api_key, identifier)`.
`fetch_movie_details` returns a THREE-element tuple
`(payload, cache_hit, error_msg)`; unpacking it into two targets raises
`ValueError: too many values to unpack` on every iteration. -/

/-- A Python runtime value occupying one slot of the returned tuple. -/
inductive PyObj where
  | json : Option Json → PyObj
  | bool : Bool → PyObj
  | str : Option PyStr → PyObj

/-- The runtime tuple value `(payload, cache_hit, error_msg)` returned by
`fetch_movie_details`: a sequence of three elements. -/
def fetchTuple (r : FetchResult) : List PyObj :=
  [PyObj.json r.payload, PyObj.bool r.cacheHit, PyObj.str r.errorMsg]

inductive PyErr where
  | valueError : PyErr
deriving DecidableEq, Repr

/-- `a, b = t`: tuple unpacking into two targets succeeds exactly on
two-element sequences and raises `ValueError` otherwise. -/
def pyUnpack2 (t : List PyObj) : Except PyErr (PyObj × PyObj) :=
  match t with
  | [a, b] => Except.ok (a, b)
  | _ => Except.error PyErr.valueError

/-- Truthiness of the unpacked `detail` slot (`if not detail: continue`):
`None` and empty containers are falsy. -/
def pyObjTruthy : PyObj → Bool
  | PyObj.json none => false
  | PyObj.json (some (Json.str s)) => decide (s ≠ [])
  | PyObj.json (some (Json.arr l)) => !l.isEmpty
  | PyObj.json (some (Json.obj d)) => !d.isEmpty
  | PyObj.bool b => b
  | PyObj.str none => false
  | PyObj.str (some s) => decide (s ≠ [])

def pyObjJson : PyObj → Option Json
  | PyObj.json o => o
  | _ => none

/-- `detail.get(k)` on the decoded detail tree. -/
def jsonGet : Json → PyStr → Option Json
  | Json.obj d, k => dictGet d k
  | _, _ => none

/-- `detail.get(k)` when the field holds a string, else `none`. -/
def jsonGetStr (j : Json) (k : PyStr) : Option PyStr :=
  match jsonGet j k with
  | some (Json.str s) => some s
  | _ => none

/-- `detail.get(k, dflt)` for the string-valued detail fields. -/
def jsonGetStrD (j : Json) (k dflt : PyStr) : PyStr :=
  (jsonGetStr j k).getD dflt

/-- The `(Source, Value)` pairs of `detail.get("Ratings", [])`, as read by
`extract_ratings`. -/
def jsonRatingsPairs (j : Json) : List (Option PyStr × Option PyStr) :=
  match jsonGet j "Ratings".data with
  | some (Json.arr l) =>
    l.map (fun e => (jsonGetStr e "Source".data, jsonGetStr e "Value".data))
  | _ => []

/-- The enriched record appended per surviving candidate (routes/search.py,
lines 165-178). -/
structure EnrichedEntry where
  item : Candidate
  plot : Option PyStr
  genre : Option PyStr
  imdbRating : Option PyStr
  boxOffice : Option PyStr
  ratings : Ratings
  averageRating : Option ℚ
  matchScore : ℚ
  ratingVal : ℚ
  yearVal : Int

/-- The body of the enrichment loop after a successful detail fetch
(routes/search.py, lines 150-178): the year and language filters, the
numeric helper fields, and the enriched record; `none` models `continue`. -/
def enrichEntry (dj : Json) (item : Candidate) (score : ℚ)
    (year_filter language_filter : Option PyStr) : Option EnrichedEntry :=
  if pyTruthy year_filter &&
      decide (pyStrip (jsonGetStrD dj "Year".data []) ≠
        year_filter.getD []) then
    none
  else if pyTruthy language_filter &&
      ! decide (pyLower (language_filter.getD []) <:+:
        pyLower (jsonGetStrD dj "Language".data [])) then
    none
  else
    let ratings := extract_ratings (jsonRatingsPairs dj)
    let ratingVal : ℚ :=
      match jsonGetStr dj "imdbRating".data with
      | none => 0
      | some s =>
        if s = [] ∨ s = "N/A".data then 0 else (pyFloatParse s).getD 0
    let yearRaw := jsonGetStr dj "Year".data
    let yearVal : Int :=
      (pyIntParse ((if pyTruthy yearRaw then yearRaw.getD []
        else "0".data).take 4)).getD 0
    some ⟨item, jsonGetStr dj "Plot".data, jsonGetStr dj "Genre".data,
      jsonGetStr dj "imdbRating".data, jsonGetStr dj "BoxOffice".data,
      ratings, average_rating ratings, score, ratingVal, yearVal⟩

/-- The detail-enrichment loop of free-text search (routes/search.py, lines
146-178), threading the cache state; each iteration calls
`fetch_movie_details` and unpacks its result into the two targets
`detail, _`.  An unpacking error aborts the batch and propagates. -/
def enrichLoop (provider : PyStr → ProviderOutcome)
    (year_filter language_filter : Option PyStr) :
    Option Cache → List (Candidate × ℚ) →
    Except PyErr (List EnrichedEntry × Option Cache)
  | cache, [] => Except.ok ([], cache)
  | cache, (item, score) :: rest =>
    let ident := (pyOr item.imdbID item.title).getD []
    let r := fetch_movie_details cache (provider ident) ident
    match pyUnpack2 (fetchTuple r) with
    | Except.error e => Except.error e
    | Except.ok (dObj, _) =>
      if pyObjTruthy dObj = false then
        enrichLoop provider year_filter language_filter r.cache rest
      else
        match pyObjJson dObj with
        | none => enrichLoop provider year_filter language_filter r.cache rest
        | some dj =>
          match enrichEntry dj item score year_filter language_filter with
          | none =>
            enrichLoop provider year_filter language_filter r.cache rest
          | some entry =>
            match enrichLoop provider year_filter language_filter
                r.cache rest with
            | Except.error e => Except.error e
            | Except.ok (tl, cache2) => Except.ok (entry :: tl, cache2)

/-- C1: the spec promises that a failed detail lookup only skips that
candidate and that the batch always completes with no exception reaching
the caller.  In the code, every iteration unpacks the 3-tuple returned by
`fetch_movie_details` into the two targets `detail, _`
(routes/search.py, line 149), so the first candidate — regardless of cache
or provider outcome — raises `ValueError` and the whole batch aborts with
the exception propagating. -/
theorem claim_C1_enrichment_aborts (provider : PyStr → ProviderOutcome)
    (year_filter language_filter : Option PyStr) (cache : Option Cache)
    (item : Candidate × ℚ) (rest : List (Candidate × ℚ)) :
    enrichLoop provider year_filter language_filter cache (item :: rest) =
      Except.error PyErr.valueError := by
  obtain ⟨c, s⟩ := item
  rfl

/-! ## Claim C7: curated-priority ordering

routes/genre.py (lines 312-355) pins the curated dataset — filtered,
ordered by `_curated_index` and capped at `GENRE_RESULT_LIMIT = 100` — in
front of the (truncated) dynamic pool, which follows in `_sort_entries`
order.  routes/boxoffice.py (lines 228-249) sorts the filtered results
purely by the selected sort key; line 249 records "No curated reordering".
CPython's `sorted`/`list.sort` is a stable sort, and a stable sort of a
total preorder key is unique, so it is modelled with `List.insertionSort`
(stable for the same tie-breaking convention); `reverse=True` keeps ties in
original order, which the flipped comparator reproduces. -/

/-- Python `<` on strings: code-point lexicographic. -/
def strLt : PyStr → PyStr → Bool
  | _, [] => false
  | [], _ :: _ => true
  | a :: xs, b :: ys =>
    if a < b then true else if b < a then false else strLt xs ys

def strLe (a b : PyStr) : Bool := !(strLt b a)

/-- The fields of a prepared genre entry that drive ordering,
deduplication and filtering (`_prepare_entry`, routes/genre.py, lines
53-81; entries without a truthy `imdbID` are dropped there). -/
structure GEntry where
  title : Option PyStr
  imdbID : PyStr
  year : Option PyStr
  language : Option PyStr
  ratingVal : ℚ
  yearVal : Int
  curatedIndex : Nat
deriving DecidableEq, Repr

/-- `(entry.get("title") or "").lower()`. -/
def gTitleKey (e : GEntry) : PyStr := pyLower (e.title.getD [])

/-- Ascending comparison of the `(_rating_val, _year_val, title_key)` sort
key (routes/genre.py, lines 119-121 and 130). -/
def gLeRating (a b : GEntry) : Bool :=
  if a.ratingVal = b.ratingVal then
    (if a.yearVal = b.yearVal then strLe (gTitleKey a) (gTitleKey b)
     else decide (a.yearVal < b.yearVal))
  else decide (a.ratingVal < b.ratingVal)

/-- Ascending comparison of the `(_year_val, _rating_val, title_key)` sort
key (routes/genre.py, lines 122-125). -/
def gLeYear (a b : GEntry) : Bool :=
  if a.yearVal = b.yearVal then
    (if a.ratingVal = b.ratingVal then strLe (gTitleKey a) (gTitleKey b)
     else decide (a.ratingVal < b.ratingVal))
  else decide (a.yearVal < b.yearVal)

/-- Ascending comparison of the `title_key` sort key (routes/genre.py,
lines 126-129). -/
def gLeTitle (a b : GEntry) : Bool := strLe (gTitleKey a) (gTitleKey b)

/-- `_sort_entries` (routes/genre.py, lines 115-133): a stable sort on the
mode's key, reversed for the `*_desc` modes. -/
def gSortEntries (entries : List GEntry) (sort_mode : PyStr) : List GEntry :=
  let asc : GEntry → GEntry → Bool :=
    if sort_mode = "year_asc".data ∨ sort_mode = "year_desc".data then
      gLeYear
    else if sort_mode = "title_asc".data ∨ sort_mode = "title_desc".data then
      gLeTitle
    else gLeRating
  if sort_mode = "rating_desc".data ∨ sort_mode = "year_desc".data ∨
      sort_mode = "title_desc".data then
    entries.insertionSort (fun a b => asc b a = true)
  else
    entries.insertionSort (fun a b => asc a b = true)

/-- `_entry_matches_filters` (routes/genre.py, lines 100-112). -/
def gMatchesFilters (e : GEntry) (year_filter language_filter : Option PyStr)
    (rating_threshold_value : Option ℚ) : Bool :=
  if pyTruthy year_filter &&
      ! decide ((year_filter.getD []) <+: (e.year.getD [])) then false
  else if pyTruthy language_filter &&
      ! decide (pyLower (language_filter.getD []) <:+:
        pyLower (e.language.getD [])) then false
  else if rating_threshold_value.isSome &&
      decide (e.ratingVal < rating_threshold_value.getD 0) then false
  else true

/-- The allow-list position order `entry.get("_curated_index", 0)` used at
routes/genre.py, line 317. -/
def curIdxLe (a b : GEntry) : Prop := a.curatedIndex ≤ b.curatedIndex

instance : DecidableRel curIdxLe := fun a b => Nat.decLe a.curatedIndex b.curatedIndex

instance : IsTotal GEntry curIdxLe := ⟨fun a b => Nat.le_total a.curatedIndex b.curatedIndex⟩

instance : IsTrans GEntry curIdxLe := ⟨fun _ _ _ => Nat.le_trans⟩

/-- The curated stage of `browse_genre` (routes/genre.py, lines 312-318):
filter the curated dataset, order it by `_curated_index` (stable) and keep
at most `GENRE_RESULT_LIMIT = 100` entries. -/
def genreCurated (curated_raw : List GEntry)
    (yf lf : Option PyStr) (rt : Option ℚ) : List GEntry :=
  (List.insertionSort curIdxLe
    (curated_raw.filter (fun e => gMatchesFilters e yf lf rt))).take 100

/-- The assembled ordering of `browse_genre` (routes/genre.py, lines
354-355): curated entries first, then the dynamic pool truncated to
`GENRE_RESULT_LIMIT - curated_total` (`max(0, ·)` is Nat subtraction) in
its `_sort_entries` order. -/
def genreOrderedEntries (curated_raw dynamic_pool : List GEntry)
    (sort_mode : PyStr) (yf lf : Option PyStr) (rt : Option ℚ) :
    List GEntry :=
  let curated := genreCurated curated_raw yf lf rt
  curated ++
    gSortEntries (dynamic_pool.take (100 - curated.length)) sort_mode

/-- The fields of a box-office result entry that drive its sort step
(routes/boxoffice.py, lines 224-247). -/
structure BEntry where
  title : Option PyStr
  imdbID : PyStr
  boxOffice : Int
  averageRating : Option ℚ
deriving DecidableEq, Repr

/-- `rating_value` (routes/boxoffice.py, lines 224-226): `float(avg)` when
present, else `-1.0`. -/
def boxRatingValue (e : BEntry) : ℚ := e.averageRating.getD (-1)

def bTitleKey (e : BEntry) : PyStr := pyLower (e.title.getD [])

def bLeTitle (a b : BEntry) : Bool := strLe (bTitleKey a) (bTitleKey b)

/-- Ascending comparison of the `(box_office, title_key)` key (line 229). -/
def bLeBoxTitle (a b : BEntry) : Bool :=
  if a.boxOffice = b.boxOffice then bLeTitle a b
  else decide (a.boxOffice < b.boxOffice)

/-- Ascending comparison of the `(rating_value, box_office, title_key)` key
(lines 230-238). -/
def bLeRatingBoxTitle (a b : BEntry) : Bool :=
  if boxRatingValue a = boxRatingValue b then bLeBoxTitle a b
  else decide (boxRatingValue a < boxRatingValue b)

/-- Ascending comparison of the `(box_office, rating_value, title_key)` key
(lines 244-247, the default mode). -/
def bLeBoxRatingTitle (a b : BEntry) : Bool :=
  if a.boxOffice = b.boxOffice then
    (if boxRatingValue a = boxRatingValue b then bLeTitle a b
     else decide (boxRatingValue a < boxRatingValue b))
  else decide (a.boxOffice < b.boxOffice)

/-- The sort step of `box_office_top` (routes/boxoffice.py, lines 228-249):
the filtered results are ordered purely by the selected sort key; the
comment on line 249 records that no curated reordering is applied. -/
def boxSortedResults (filtered : List BEntry) (sort_mode : PyStr) :
    List BEntry :=
  if sort_mode = "box_office_asc".data then
    filtered.insertionSort (fun a b => bLeBoxTitle a b = true)
  else if sort_mode = "rating_desc".data then
    filtered.insertionSort (fun a b => bLeRatingBoxTitle b a = true)
  else if sort_mode = "rating_asc".data then
    filtered.insertionSort (fun a b => bLeRatingBoxTitle a b = true)
  else if sort_mode = "title_asc".data then
    filtered.insertionSort (fun a b => bLeTitle a b = true)
  else if sort_mode = "title_desc".data then
    filtered.insertionSort (fun a b => bLeTitle b a = true)
  else
    filtered.insertionSort (fun a b => bLeBoxRatingTitle b a = true)

/-- `GENRE_CURATED_IDS["action"]` (services/omdb.py, lines 23-33). -/
def genreCuratedIdsAction : List PyStr :=
  ["tt4154796".data, "tt0848228".data, "tt0468569".data, "tt0133093".data,
   "tt1392190".data, "tt1375666".data, "tt2911666".data, "tt4154756".data,
   "tt1825683".data, "tt4912910".data]

/-- The dedup key `entry["imdbID"].lower()` of `browse_genre`'s `seen_ids`
(routes/genre.py, lines 330-331). -/
def gIdKey (e : GEntry) : PyStr := pyLower e.imdbID

/-- Counterexample to C7's box-office half: with the `action` genre filter
active — a genre with a curated allow-list — the box-office route sorts the
filtered results purely by the selected key and applies no curated
reordering (routes/boxoffice.py, line 249), so a curated identifier in the
result set is not pinned to the front. -/
theorem claim_C7_counterexample :
    boxSortedResults
      [⟨some "Avengers: Endgame".data, "tt4154796".data, 5, none⟩,
       ⟨some "Metropolis".data, "tt9999999".data, 10, none⟩]
      "box_office_desc".data =
      [⟨some "Metropolis".data, "tt9999999".data, 10, none⟩,
       ⟨some "Avengers: Endgame".data, "tt4154796".data, 5, none⟩] ∧
    "tt4154796".data ∈ genreCuratedIdsAction ∧
    ¬ "tt9999999".data ∈ genreCuratedIdsAction := by
  refine ⟨by decide, by decide, by decide⟩

theorem gSortEntries_perm (l : List GEntry) (m : PyStr) :
    List.Perm (gSortEntries l m) l := by
  simp only [gSortEntries]
  split
  · exact List.perm_insertionSort _ l
  · exact List.perm_insertionSort _ l

/-- C7 (amended): only the genre route pins curated entries.  Its ordered
set is the filtered curated dataset — ordered by allow-list position
(`_curated_index`) and capped at 100 — followed by the truncated dynamic
pool in `_sort_entries` order; and whenever the curated and dynamic pools
carry duplicate-free, mutually disjoint identifier keys (which the route
maintains via `seen_ids`), every identifier appears at most once, with
curated occurrences first.  The box-office route applies no curated
reordering (see the counterexample). -/
theorem claim_C7_curated_ordering (curated_raw dynamic_pool : List GEntry)
    (sort_mode : PyStr) (yf lf : Option PyStr) (rt : Option ℚ)
    (hC : (curated_raw.map gIdKey).Nodup)
    (hD : (dynamic_pool.map gIdKey).Nodup)
    (hdisj : ∀ e ∈ curated_raw, ∀ e2 ∈ dynamic_pool,
      gIdKey e ≠ gIdKey e2) :
    (genreOrderedEntries curated_raw dynamic_pool sort_mode yf lf rt).take
        (genreCurated curated_raw yf lf rt).length =
      genreCurated curated_raw yf lf rt ∧
    (genreOrderedEntries curated_raw dynamic_pool sort_mode yf lf rt).drop
        (genreCurated curated_raw yf lf rt).length =
      gSortEntries (dynamic_pool.take
        (100 - (genreCurated curated_raw yf lf rt).length)) sort_mode ∧
    List.Pairwise curIdxLe (genreCurated curated_raw yf lf rt) ∧
    ((genreOrderedEntries curated_raw dynamic_pool sort_mode yf lf rt).map
      gIdKey).Nodup := by
  have hCnodup : ((genreCurated curated_raw yf lf rt).map gIdKey).Nodup := by
    have hf : ((curated_raw.filter
        (fun e => gMatchesFilters e yf lf rt)).map gIdKey).Nodup :=
      List.Nodup.sublist (List.Sublist.map _ (List.filter_sublist _)) hC
    have hs : ((List.insertionSort curIdxLe (curated_raw.filter
        (fun e => gMatchesFilters e yf lf rt))).map gIdKey).Nodup :=
      (((List.perm_insertionSort curIdxLe _).map gIdKey).nodup_iff).mpr hf
    exact List.Nodup.sublist
      (List.Sublist.map _ (List.take_sublist _ _)) hs
  have hDnodup : ((gSortEntries (dynamic_pool.take
      (100 - (genreCurated curated_raw yf lf rt).length)) sort_mode).map
        gIdKey).Nodup := by
    have ht : ((dynamic_pool.take
        (100 - (genreCurated curated_raw yf lf rt).length)).map
          gIdKey).Nodup :=
      List.Nodup.sublist (List.Sublist.map _ (List.take_sublist _ _)) hD
    exact (((gSortEntries_perm _ _).map gIdKey).nodup_iff).mpr ht
  have hmemC : ∀ e, e ∈ genreCurated curated_raw yf lf rt →
      e ∈ curated_raw := by
    intro e he
    have h1 := List.mem_of_mem_take he
    have h2 := ((List.perm_insertionSort curIdxLe _).mem_iff).mp h1
    exact List.mem_of_mem_filter h2
  have hmemD : ∀ e, e ∈ gSortEntries (dynamic_pool.take
      (100 - (genreCurated curated_raw yf lf rt).length)) sort_mode →
      e ∈ dynamic_pool := by
    intro e he
    exact List.mem_of_mem_take (((gSortEntries_perm _ _).mem_iff).mp he)
  refine ⟨?_, ?_, ?_, ?_⟩
  · simp only [genreOrderedEntries]
    exact List.take_left _ _
  · simp only [genreOrderedEntries]
    exact List.drop_left _ _
  · exact List.Pairwise.sublist (List.take_sublist _ _)
      (List.sorted_insertionSort curIdxLe _)
  · simp only [genreOrderedEntries, List.map_append]
    refine List.Nodup.append hCnodup hDnodup ?_
    intro x hxc hxd
    obtain ⟨e, he, rfl⟩ := List.mem_map.mp hxc
    obtain ⟨e2, he2, heq⟩ := List.mem_map.mp hxd
    exact hdisj e (hmemC e he) e2 (hmemD e2 he2) heq.symm

/-- Witness for C7 at concrete inputs: two curated entries (allow-list
positions 1 and 0) and one dynamic entry, rating-descending sort, no
filters. -/
theorem claim_C7_witness :
    (([⟨some "B".data, "tt2".data, none, none, 1, 2000, 1⟩,
       ⟨some "A".data, "tt1".data, none, none, 2, 2001, 0⟩] :
        List GEntry).map gIdKey).Nodup ∧
    (([⟨some "C".data, "tt3".data, none, none, 3, 1999, 1002⟩] :
        List GEntry).map gIdKey).Nodup ∧
    (∀ e ∈ ([⟨some "B".data, "tt2".data, none, none, 1, 2000, 1⟩,
       ⟨some "A".data, "tt1".data, none, none, 2, 2001, 0⟩] :
        List GEntry),
      ∀ e2 ∈ ([⟨some "C".data, "tt3".data, none, none, 3, 1999, 1002⟩] :
        List GEntry), gIdKey e ≠ gIdKey e2) ∧
    ((genreOrderedEntries
        [⟨some "B".data, "tt2".data, none, none, 1, 2000, 1⟩,
         ⟨some "A".data, "tt1".data, none, none, 2, 2001, 0⟩]
        [⟨some "C".data, "tt3".data, none, none, 3, 1999, 1002⟩]
        "rating_desc".data none none none).take
        (genreCurated
          [⟨some "B".data, "tt2".data, none, none, 1, 2000, 1⟩,
           ⟨some "A".data, "tt1".data, none, none, 2, 2001, 0⟩]
          none none none).length =
      genreCurated
        [⟨some "B".data, "tt2".data, none, none, 1, 2000, 1⟩,
         ⟨some "A".data, "tt1".data, none, none, 2, 2001, 0⟩]
        none none none ∧
    (genreOrderedEntries
        [⟨some "B".data, "tt2".data, none, none, 1, 2000, 1⟩,
         ⟨some "A".data, "tt1".data, none, none, 2, 2001, 0⟩]
        [⟨some "C".data, "tt3".data, none, none, 3, 1999, 1002⟩]
        "rating_desc".data none none none).drop
        (genreCurated
          [⟨some "B".data, "tt2".data, none, none, 1, 2000, 1⟩,
           ⟨some "A".data, "tt1".data, none, none, 2, 2001, 0⟩]
          none none none).length =
      gSortEntries
        (([⟨some "C".data, "tt3".data, none, none, 3, 1999, 1002⟩] :
          List GEntry).take
          (100 - (genreCurated
            [⟨some "B".data, "tt2".data, none, none, 1, 2000, 1⟩,
             ⟨some "A".data, "tt1".data, none, none, 2, 2001, 0⟩]
            none none none).length)) "rating_desc".data ∧
    List.Pairwise curIdxLe
      (genreCurated
        [⟨some "B".data, "tt2".data, none, none, 1, 2000, 1⟩,
         ⟨some "A".data, "tt1".data, none, none, 2, 2001, 0⟩]
        none none none) ∧
    ((genreOrderedEntries
        [⟨some "B".data, "tt2".data, none, none, 1, 2000, 1⟩,
         ⟨some "A".data, "tt1".data, none, none, 2, 2001, 0⟩]
        [⟨some "C".data, "tt3".data, none, none, 3, 1999, 1002⟩]
        "rating_desc".data none none none).map gIdKey).Nodup) :=
  ⟨by decide, by decide, by decide,
    claim_C7_curated_ordering
      [⟨some "B".data, "tt2".data, none, none, 1, 2000, 1⟩,
       ⟨some "A".data, "tt1".data, none, none, 2, 2001, 0⟩]
      [⟨some "C".data, "tt3".data, none, none, 3, 1999, 1002⟩]
      "rating_desc".data none none none
      (by decide) (by decide) (by decide)⟩

end MovieDB
